import Mathlib

set_option linter.unusedVariables false

/-!
Verification of the multi-target code generation layer of the gleam-dotnet
compiler fork: a shallow embedding of `compiler-core/src/fsharp.rs` and
`compiler-core/src/codegen.rs`, with theorems settling the specification
claims about type-shape classification, cross-variant accessor synthesis,
block trailing-value lowering, guard parenthesization, boolean/nil literal
sugar, unicode-escape normalization, prelude-write debouncing, manifest
determinism and operator rendering.
-/

namespace GleamDotnet

/-- Modelled from the spec: the Document Engine primitives of spec section 4.1
(text, concatenation, conditional and forced line breaks, indentation,
grouping).  The pretty-printing engine's own source file is not among the
embedded sources; only the constructors used by the F# backend are modelled. -/
inductive Document where
  | text (s : String)
  | nil
  | line
  | break' (broken unbroken : String)
  | append (a b : Document)
  | nest (n : Int) (d : Document)
  | group (d : Document)
  | forceBreak (d : Document)
deriving DecidableEq, Repr

/-- Concatenation of a list of documents, the model of the `docvec!` macro. -/
def docList (ds : List Document) : Document :=
  ds.foldl Document.append Document.nil

/-- Model of the document `join` combinator: documents interspersed with a
separator document. -/
def joinDoc : List Document → Document → Document
  | [], _ => Document.nil
  | [d], _ => d
  | d :: rest, sep => Document.append (Document.append d sep) (joinDoc rest sep)

/-- Model of the `surround(open, close)` document combinator. -/
def Document.surround (d : Document) (o c : String) : Document :=
  Document.append (Document.append (Document.text o) d) (Document.text c)

/-- Modelled from the spec: the flat (all-on-one-line) rendering of a
document, the layout the engine produces when every group fits the width. -/
def Document.flatten : Document → String
  | .text s => s
  | .nil => ""
  | .line => " "
  | .break' _ unbroken => unbroken
  | .append a b => a.flatten ++ b.flatten
  | .nest _ d => d.flatten
  | .group d => d.flatten
  | .forceBreak d => d.flatten

/-- Modelled from the spec: structural emptiness check on documents used by
`optional_clause_guard`. -/
def Document.isEmptyDoc : Document → Bool
  | .text s => s.isEmpty
  | .nil => true
  | .line => false
  | .break' _ _ => false
  | .append a b => a.isEmptyDoc && b.isEmptyDoc
  | .nest _ d => d.isEmptyDoc
  | .group d => d.isEmptyDoc
  | .forceBreak d => d.isEmptyDoc

/-- Source span of a syntax node (positions in the original source text). -/
structure SrcSpan where
  startPos : Nat
  endPos : Nat
deriving DecidableEq, Repr

/-- Visibility of a declaration. -/
inductive Publicity where
  | public
  | internal
  | private'
deriving DecidableEq, Repr

/-- Deprecation marker on a declaration. -/
inductive Deprecation where
  | notDeprecated
  | deprecated (message : String)
deriving DecidableEq, Repr

mutual
/-- The type language of the typed tree (`Type` in the upstream type
collaborator): named types, function types, tuples and type variables. -/
inductive FsType where
  | named (module name : String) (args : List FsType)
  | fn (args : List FsType) (retrn : FsType)
  | tuple (elems : List FsType)
  | var (type_ : TypeVar)

/-- A type variable: unbound, linked to a concrete type, or generic. -/
inductive TypeVar where
  | unbound (id : Nat)
  | link (type_ : FsType)
  | generic (id : Nat)
end

mutual
/-- Structural equality on types, the model of the derived `PartialEq`
used by the accessor-synthesis comparison `type_ == first_type`. -/
def FsType.beq : FsType → FsType → Bool
  | .named m1 n1 a1, .named m2 n2 a2 => m1 == m2 && n1 == n2 && FsType.beqList a1 a2
  | .fn a1 r1, .fn a2 r2 => FsType.beqList a1 a2 && FsType.beq r1 r2
  | .tuple e1, .tuple e2 => FsType.beqList e1 e2
  | .var v1, .var v2 => TypeVar.beq v1 v2
  | _, _ => false

/-- Pointwise structural equality on lists of types. -/
def FsType.beqList : List FsType → List FsType → Bool
  | [], [] => true
  | x :: xs, y :: ys => FsType.beq x y && FsType.beqList xs ys
  | _, _ => false

/-- Structural equality on type variables. -/
def TypeVar.beq : TypeVar → TypeVar → Bool
  | .unbound i, .unbound j => i == j
  | .link t1, .link t2 => FsType.beq t1 t2
  | .generic i, .generic j => i == j
  | _, _ => false
end

mutual
/-- Modelled from the spec: the nil/unit type test of the upstream type
collaborator — the prelude type `Nil` of module `gleam`, resolved through
type-variable links. -/
def FsType.is_nil : FsType → Bool
  | .named "gleam" "Nil" _ => true
  | .var tv => tv.is_nil
  | _ => false

/-- Nil test on a type variable (resolves links). -/
def TypeVar.is_nil : TypeVar → Bool
  | .link t => t.is_nil
  | _ => false
end

mutual
/-- Modelled from the spec: the boolean type test of the upstream type
collaborator — the prelude type `Bool` of module `gleam`. -/
def FsType.is_bool : FsType → Bool
  | .named "gleam" "Bool" _ => true
  | .var tv => tv.is_bool
  | _ => false

/-- Bool test on a type variable (resolves links). -/
def TypeVar.is_bool : TypeVar → Bool
  | .link t => t.is_bool
  | _ => false
end

mutual
/-- Modelled from the spec: the function-type test of the upstream type
collaborator. -/
def FsType.is_fun : FsType → Bool
  | .fn _ _ => true
  | .var tv => tv.is_fun
  | _ => false

/-- Function-type test on a type variable (resolves links). -/
def TypeVar.is_fun : TypeVar → Bool
  | .link t => t.is_fun
  | _ => false
end

mutual
/-- Modelled from the spec: arity of a function type, `none` on
non-function types. -/
def FsType.fn_arity : FsType → Option Nat
  | .fn args _ => some args.length
  | .var tv => tv.fn_arity
  | _ => none

/-- Function arity seen through a type variable. -/
def TypeVar.fn_arity : TypeVar → Option Nat
  | .link t => t.fn_arity
  | _ => none
end

/-- A bijective mapping from argument label to ordinal position. -/
structure FieldMap where
  arity : Nat
  fields : List (String × Nat)
deriving DecidableEq, Repr

/-- Inverts a field map into a position-to-label association list
(`invert_field_map` in `fsharp.rs`). -/
def invert_field_map (field_map : FieldMap) : List (Nat × String) :=
  field_map.fields.map (fun p => (p.2, p.1))

/-- One argument of a custom-type constructor: an optional label with its
source span, and a type. -/
structure RecordConstructorArg where
  label : Option (SrcSpan × String)
  type_ : FsType

/-- One constructor of a custom type. -/
structure RecordConstructor where
  name : String
  arguments : List RecordConstructorArg

/-- A custom (tagged) type declaration.  The source field `opaque` is
modelled as `opacity`. -/
structure CustomType where
  name : String
  publicity : Publicity
  opacity : Bool
  typed_parameters : List FsType
  constructors : List RecordConstructor

/-- Assignment target name: a variable or a discard. -/
inductive AssignName where
  | variable (name : String)
  | discard (name : String)

mutual
/-- A typed constant expression (`Constant` in the typed tree). -/
inductive Constant where
  | int (value : String)
  | float (value : String)
  | string (value : String)
  | tuple (elements : List Constant)
  | list (elements : List Constant)
  | record (args : List ConstantCallArg) (module : Option (String × SrcSpan))
      (name : String) (tag : String) (type_ : FsType) (field_map : Option FieldMap)
  | bitArray
  | var (module : Option (String × SrcSpan)) (name : String)
  | stringConcatenation (left right : Constant)
  | invalid

/-- A (possibly labelled) argument of a constant record constructor call. -/
inductive ConstantCallArg where
  | mk (label : Option String) (value : Constant)
end

/-- The value of a constant call argument. -/
def ConstantCallArg.value : ConstantCallArg → Constant
  | .mk _ v => v

/-- How a resolved value identifier was constructed. -/
inductive ValueConstructorVariant where
  | localVariable
  | moduleConstant (literal : Constant)
  | moduleFn
  | record (name : String) (arity : Nat) (field_map : Option FieldMap)
      (constructors_count : Nat)

/-- A resolved value identifier: its construction variant and its type. -/
structure ValueConstructor where
  variant : ValueConstructorVariant
  type_ : FsType

/-- The resolved constructor information attached to a constructor pattern. -/
structure PatternConstructor where
  name : String
  field_map : Option FieldMap

/-- Inference result wrapper for pattern constructors. -/
inductive Inferred (α : Type) where
  | known (v : α)
  | unknown

mutual
/-- A typed pattern (`Pattern` in the typed tree). -/
inductive Pattern where
  | int (value : String)
  | float (value : String)
  | string (value : String)
  | variable (name : String)
  | discard (name : String)
  | list (elements : List Pattern) (tail : Option Pattern)
  | tuple (elems : List Pattern)
  | stringPrefix (left_side_string : String) (right_side_assignment : AssignName)
      (left_side_assignment : Option (String × SrcSpan))
  | bitArray (segments : List PatternBitArraySegment)
  | varUsage (name : String) (constructor : Option ValueConstructor)
  | invalid
  | assign (name : String) (pattern : Pattern)
  | constructor (name : String) (constructor : Inferred PatternConstructor)
      (arguments : List PatternCallArg) (spread : Option SrcSpan) (type_ : FsType)

/-- A (possibly labelled) argument of a constructor pattern. -/
inductive PatternCallArg where
  | mk (label : Option String) (value : Pattern)

/-- One segment of a bit-array pattern (only the sub-pattern is used by
the F# backend). -/
inductive PatternBitArraySegment where
  | mk (value : Pattern)
end

/-- The label of a constructor-pattern argument. -/
def PatternCallArg.label : PatternCallArg → Option String
  | .mk l _ => l

/-- The sub-pattern of a constructor-pattern argument. -/
def PatternCallArg.value : PatternCallArg → Pattern
  | .mk _ v => v

/-- The sub-pattern of a bit-array segment. -/
def PatternBitArraySegment.value : PatternBitArraySegment → Pattern
  | .mk v => v

/-- Whether a pattern is a discard (`Pattern::is_discard`). -/
def Pattern.is_discard : Pattern → Bool
  | .discard _ => true
  | _ => false

/-- A typed match-arm guard expression (`ClauseGuard` in the typed tree). -/
inductive ClauseGuard where
  | or (left right : ClauseGuard)
  | and (left right : ClauseGuard)
  | equals (left right : ClauseGuard)
  | notEquals (left right : ClauseGuard)
  | gtInt (left right : ClauseGuard)
  | gtEqInt (left right : ClauseGuard)
  | ltInt (left right : ClauseGuard)
  | ltEqInt (left right : ClauseGuard)
  | gtFloat (left right : ClauseGuard)
  | gtEqFloat (left right : ClauseGuard)
  | ltFloat (left right : ClauseGuard)
  | ltEqFloat (left right : ClauseGuard)
  | addInt (left right : ClauseGuard)
  | addFloat (left right : ClauseGuard)
  | subInt (left right : ClauseGuard)
  | subFloat (left right : ClauseGuard)
  | multInt (left right : ClauseGuard)
  | multFloat (left right : ClauseGuard)
  | divInt (left right : ClauseGuard)
  | divFloat (left right : ClauseGuard)
  | remainderInt (left right : ClauseGuard)
  | not (expression : ClauseGuard)
  | var (name : String)
  | tupleIndex (tuple : ClauseGuard) (index : Nat)
  | fieldAccess (container : ClauseGuard) (label : String)
  | moduleSelect (literal : Constant)
  | constant (c : Constant)

/-- Binary operators of the source language (`BinOp`). -/
inductive BinOp where
  | and | or | eq | notEq
  | ltInt | ltEqInt | ltFloat | ltEqFloat
  | gtEqInt | gtInt | gtEqFloat | gtFloat
  | addInt | addFloat | subInt | subFloat
  | multInt | multFloat | divInt | divFloat
  | remainderInt | concatenate
deriving DecidableEq, Repr

/-- Names given to a function parameter (`ArgNames`). -/
inductive ArgNames where
  | named (name : String)
  | discard (name : String)
  | namedLabelled (label name : String)
  | labelledDiscard (label name : String)

/-- The bindable variable name of a parameter, if any
(`ArgNames::get_variable_name`). -/
def ArgNames.get_variable_name : ArgNames → Option String
  | .named n => some n
  | .namedLabelled _ n => some n
  | .discard _ => none
  | .labelledDiscard _ _ => none

/-- A typed function parameter (`TypedArg`). -/
structure TypedArg where
  names : ArgNames
  type_ : FsType

mutual
/-- A typed expression (`TypedExpr` in the typed tree). -/
inductive TypedExpr where
  | int (value : String)
  | float (value : String)
  | string (value : String)
  | block (statements : List TypedStatement)
  | pipeline (assignments : List Assignment) (finally' : TypedExpr)
  | var (name : String) (constructor : ValueConstructor)
  | fn (args : List TypedArg) (body : List TypedStatement)
  | list (elements : List TypedExpr)
  | call (fun' : TypedExpr) (args : List ExprCallArg)
  | binOp (name : BinOp) (left right : TypedExpr)
  | case' (subjects : List TypedExpr) (clauses : List Clause)
  | tuple (elems : List TypedExpr)
  | negateInt (value : TypedExpr)
  | todo (message : Option TypedExpr)
  | panic (message : Option TypedExpr)
  | recordAccess (label : String) (record : TypedExpr)
  | recordUpdate (args : List RecordUpdateArg) (spread : TypedExpr)
  | moduleSelect
  | tupleIndex (tuple : TypedExpr) (index : Nat)
  | bitArray
  | negateBool (value : TypedExpr)
  | invalid

/-- A typed statement: an expression, an assignment, or a `use`. -/
inductive TypedStatement where
  | expression (expr : TypedExpr)
  | assignment (a : Assignment)
  | use'

/-- A typed `let` assignment (`Assignment`). -/
inductive Assignment where
  | mk (pattern : Pattern) (value : TypedExpr)

/-- One arm of a `case` expression (`Clause`). -/
inductive Clause where
  | mk (pattern : List Pattern) (alternative_patterns : List (List Pattern))
      (guard : Option ClauseGuard) (then' : TypedExpr)

/-- A (possibly labelled) call argument (`CallArg<TypedExpr>`). -/
inductive ExprCallArg where
  | mk (label : Option String) (value : TypedExpr)

/-- One field of a record-update expression. -/
inductive RecordUpdateArg where
  | mk (label : String) (value : TypedExpr)
end

/-- The pattern of an assignment. -/
def Assignment.pattern : Assignment → Pattern
  | .mk p _ => p

/-- The value of an assignment. -/
def Assignment.value : Assignment → TypedExpr
  | .mk _ v => v

/-- The value of a call argument. -/
def ExprCallArg.value : ExprCallArg → TypedExpr
  | .mk _ v => v

/-- The label of a record-update field. -/
def RecordUpdateArg.label : RecordUpdateArg → String
  | .mk l _ => l

/-- The value of a record-update field. -/
def RecordUpdateArg.value : RecordUpdateArg → TypedExpr
  | .mk _ v => v

/-- The type information of a module: resolved value constructors by name. -/
structure TypeInfo where
  values : List (String × ValueConstructor)

/-- A typed module: its hierarchical name and its type information (the
declaration list is not needed by the embedded functions). -/
structure TypedModule where
  name : String
  type_info : TypeInfo

/-- The F# code generator (`Generator` in `fsharp.rs`).  The mutable
`external_files` accumulator is an orchestration concern not touched by the
claims and is not modelled. -/
structure Generator where
  module : TypedModule

/-- The F# reserved words escaped by the generator (`is_reserved_word`). -/
def is_reserved_word (name : String) : Bool :=
  name ∈ ["asr", "land", "lor", "lsl", "lsr", "lxor", "mod", "sig", "break",
    "checked", "component", "const", "constraint", "continue", "event",
    "external", "include", "mixin", "parallel", "process", "protected",
    "pure", "sealed", "tailcall", "trait", "virtual", "abstract", "and",
    "as", "assert", "base", "begin", "class", "default", "delegate", "do",
    "done", "downcast", "downto", "elif", "else", "end", "exception",
    "extern", "false", "finally", "fixed", "for", "fun", "function",
    "global", "if", "in", "inherit", "inline", "interface", "internal",
    "lazy", "let", "match", "member", "module", "mutable", "namespace",
    "new", "not", "null", "of", "open", "or", "override", "private",
    "public", "rec", "return", "select", "static", "struct", "then", "to",
    "true", "try", "type", "upcast", "use", "val", "void", "when", "while",
    "with", "yield"]

/-- Whether a character is non-whitespace, the model of the regex class
`\S` for the ASCII inputs at issue. -/
def nonWS (c : Char) : Bool :=
  !(c == ' ' || c == '\t' || c == '\n' || c == '\r' || c == '\x0b' || c == '\x0c')

/-- Index of the last closing brace within a run of non-whitespace
characters, the backtracking target of the greedy `\S+` capture. -/
def lastBraceIdx (run : List Char) : Option Nat :=
  match run.reverse.findIdx? (· == '}') with
  | some r => some (run.length - 1 - r)
  | none => none

/-- A leftmost match of the pattern `(\\+)(u)\{(\S+)\}` at the start of the
input, if any: the number of leading backslashes, the brace content, and
the total number of characters consumed.  `\\+` greedily takes the maximal
backslash run; `\S+` greedily extends to the last closing brace inside the
non-whitespace run (regex backtracking semantics). -/
def tryMatch (xs : List Char) : Option (Nat × List Char × Nat) :=
  let m := (xs.takeWhile (· == '\\')).length
  if m = 0 then none
  else match xs.drop m with
    | 'u' :: '{' :: rest =>
      let run := rest.takeWhile (fun c => nonWS c)
      match lastBraceIdx run with
      | some p => if 1 ≤ p then some (m, run.take p, m + 2 + p + 1) else none
      | none => none
    | _ => none

/-- Left-to-right non-overlapping replacement pass of
`unicode_escape_sequence_pattern().replace_all` in `string_inner`: an even
backslash count reproduces the matched text verbatim, an odd count drops
the braces.  The fuel is the input length; every match consumes at least
one character, so the fuel never runs out on the recursive path. -/
def replaceAllAux : Nat → List Char → List Char
  | 0, xs => xs
  | _ + 1, [] => []
  | fuel + 1, c :: rest =>
    match tryMatch (c :: rest) with
    | some (m, content, consumed) =>
      List.replicate m '\\' ++
        (if m % 2 = 0 then 'u' :: '{' :: (content ++ ['}']) else 'u' :: content) ++
        replaceAllAux fuel ((c :: rest).drop consumed)
    | none => c :: replaceAllAux fuel rest

/-- The unicode-escape normalization applied to every string literal. -/
def replaceAll (xs : List Char) : List Char :=
  replaceAllAux xs.length xs

/-- Escapes reserved words in each `/`-separated segment of a name and
joins the segments with `.` (`santitize_name`, source spelling kept). -/
def Generator.santitize_name (g : Generator) (name : String) : Document :=
  joinDoc ((name.splitOn "/").map (fun s =>
    if is_reserved_word s then (Document.text s).surround "``" "``"
    else Document.text s)) (Document.text ".")

/-- Unicode-escape normalization of a string literal body (`string_inner`). -/
def Generator.string_inner (g : Generator) (value : String) : Document :=
  Document.text (String.mk (replaceAll value.data))

/-- A quoted string literal (`string`). -/
def Generator.string (g : Generator) (value : String) : Document :=
  (g.string_inner value).surround "\"" "\""

/-- The type-shape classifier (`is_fsharp_union_type`): `true` means the
custom type lowers to a discriminated union, `false` to a record. -/
def Generator.is_fsharp_union_type (g : Generator) (t : CustomType) : Bool :=
  if t.constructors.length ≠ 1 then true
  else match t.constructors with
    | [] => true
    | c :: _ =>
      c.name ≠ t.name || c.arguments.isEmpty ||
        c.arguments.any (fun a => a.label.isNone)

/-- Visibility prefix of a declaration (`map_publicity`). -/
def Generator.map_publicity (g : Generator) (p : Publicity) : Document :=
  match p with
  | .public => Document.nil
  | .internal => Document.text "internal "
  | .private' => Document.text "private "

/-- Lowering of a source type to F# type syntax (`type_to_fsharp`). -/
def Generator.type_to_fsharp (g : Generator) (t : FsType) : Document :=
  if t.is_nil then Document.text "unit"
  else match t with
  | .named _ name args =>
      let nameDoc := match name with
        | "Int" | "int" => Document.text "int"
        | "Float" | "float" => Document.text "float"
        | "String" | "string" => Document.text "string"
        | "Bool" | "bool" => Document.text "bool"
        | "Nil" => Document.text "unit"
        | _ => Document.text name
      if args.isEmpty then nameDoc
      else ((nameDoc.append (Document.text "<")).append
        (joinDoc (args.attach.map (fun x => match x with
          | ⟨a, hmem⟩ => g.type_to_fsharp a)) (Document.text ", "))).append
        (Document.text ">")
  | .fn args retrn =>
      let arg_types := args.attach.map (fun x => match x with
        | ⟨a, hmem⟩ => g.type_to_fsharp a)
      let arg_types := if arg_types.isEmpty then Document.text "unit"
        else joinDoc arg_types (Document.text " -> ")
      let return_type := g.type_to_fsharp retrn
      docList [arg_types, Document.text " -> ", return_type]
  | .tuple elems =>
      (joinDoc (elems.attach.map (fun x => match x with
        | ⟨e, hmem⟩ => g.type_to_fsharp e)) (Document.text "; ")).surround "(" ")"
  | .var tv =>
      match tv with
      | .link type_ => g.type_to_fsharp type_
      | .unbound id => Document.text ("'u" ++ toString id)
      | .generic id => Document.text ("'t" ++ toString id)
termination_by sizeOf t
decreasing_by
  all_goals simp_wf
  all_goals first
    | omega
    | (have h9 := List.sizeOf_lt_of_mem hmem; omega)

/-- Type-parameter list of a custom type declaration (`type_params`). -/
def Generator.type_params (g : Generator) (t : CustomType) : Document :=
  let type_params :=
    (joinDoc (t.typed_parameters.map (fun tp => g.type_to_fsharp tp))
      (Document.text ", ")).surround "<" ">"
  if !t.typed_parameters.isEmpty then type_params else Document.nil

/-- Record lowering of a single-constructor fully-labelled custom type
(`record_type`).  The empty-constructor branch is unreachable (the source
uses `.expect("Single constructor should exist")`). -/
def Generator.record_type (g : Generator) (t : CustomType) : Document :=
  match t.constructors with
  | [] => Document.nil
  | constructor :: _ =>
    let name := t.name
    let fields := constructor.arguments.map (fun r =>
      let type_doc := g.type_to_fsharp r.type_
      match r.label with
      | some (_, label) => docList [g.santitize_name label, Document.text ": ", type_doc]
      | none => type_doc)
    let opacity := if t.opacity then
        ((Document.line.nest 4).append (Document.text "private ")).append (Document.line.nest 8)
      else Document.nil
    docList [Document.text "type ", g.map_publicity t.publicity, Document.text name,
      g.type_params t, Document.text " = ", opacity,
      (((joinDoc fields (Document.text "; ")).surround "\x7b " " \x7d").group).nest 4]

/-- Constructors of a custom type in the stable name order used by the
union lowering (`sorted_by(|a, b| Ord::cmp(&a.name, &b.name))`). -/
def sortedConstructors (t : CustomType) : List RecordConstructor :=
  List.insertionSort (fun a b => a.name ≤ b.name) t.constructors

/-- The labelled-argument occurrences contributed by one constructor, in
argument order: label, argument position, argument type, and the
constructor itself. -/
def constructorLabelOccs (c : RecordConstructor) :
    List (String × (Nat × FsType × RecordConstructor)) :=
  c.arguments.enum.filterMap (fun ir =>
    match ir.2.label with
    | some (_, arg_name) => some (arg_name, (ir.1, ir.2.type_, c))
    | none => none)

/-- Appends one occurrence to the entry of its label, creating the entry if
absent — the model of `named_fields.entry(name).or_insert(Vec::new()).push(..)`. -/
def pushNamed (m : List (String × List (Nat × FsType × RecordConstructor)))
    (k : String) (v : Nat × FsType × RecordConstructor) :
    List (String × List (Nat × FsType × RecordConstructor)) :=
  match m with
  | [] => [(k, [v])]
  | (k', vs) :: rest =>
    if k' = k then (k', vs ++ [v]) :: rest else (k', vs) :: pushNamed rest k v

/-- The `named_fields` map of `discriminated_union`: for every label, the
`(position, type, constructor)` occurrences collected while iterating the
name-sorted constructors and their arguments in order. -/
def namedFields (t : CustomType) :
    List (String × List (Nat × FsType × RecordConstructor)) :=
  (sortedConstructors t).foldl
    (fun m c => (constructorLabelOccs c).foldl (fun m kv => pushNamed m kv.1 kv.2) m) []

/-- The match arms of one synthesized accessor member, one per constructor
in stable name order, destructuring only the accessed position. -/
def memberCases (type_name label : String)
    (type_loc_list : List (Nat × FsType × RecordConstructor)) : List Document :=
  (List.insertionSort (fun a b => a.2.2.name ≤ b.2.2.name) type_loc_list).map (fun occ =>
    let index := occ.1
    let c := occ.2.2
    let max_index := c.arguments.length - 1
    let discards := (List.range (max_index + 1)).map (fun _ => Document.text "_")
    let discards := discards.set index (Document.text label)
    let discards_doc := ((joinDoc discards (Document.text ", ")).surround "(" ")").group
    docList [Document.text "| ", Document.text type_name, Document.text ".",
      Document.text c.name, Document.text " ", discards_doc, Document.text " -> ",
      Document.text label])

/-- The document of one synthesized accessor member. -/
def memberDeclarationDoc (type_name label : String)
    (type_loc_list : List (Nat × FsType × RecordConstructor)) : Document :=
  ((docList [Document.text "member this.", Document.text label, Document.text " = ",
    Document.line, Document.text "match this with", Document.line,
    joinDoc (memberCases type_name label type_loc_list) Document.line]).group).nest 4

/-- The retention test of one `named_fields` entry (the body of the
`filter_map` in `discriminated_union`): the entry is kept exactly when its
occurrence count equals the constructor count and all occurrences agree
with the first on position and type; the empty-list branch is the source's
unreachable `.expect("Type loc list should have elements")`. -/
def member_declaration_entry (t : CustomType)
    (lp : String × List (Nat × FsType × RecordConstructor)) :
    Option (String × Document) :=
  if lp.2.length = t.constructors.length then
    match lp.2 with
    | [] => none
    | (first_index, first_type, _) :: _ =>
      if lp.2.all (fun o => o.1 = first_index && FsType.beq o.2.1 first_type) then
        some (lp.1, memberDeclarationDoc t.name lp.1 lp.2)
      else none
  else none

/-- The retained accessor members of a union type, keyed by label
(`member_declarations` in `discriminated_union`). -/
def member_declarations (t : CustomType) : List (String × Document) :=
  (List.insertionSort (fun a b => a.1 ≤ b.1) (namedFields t)).filterMap
    (member_declaration_entry t)

/-- Union lowering of a custom type (`discriminated_union`).  The
`named_fields` accumulation is factored into `namedFields` and
`member_declarations`; the unused `max_indices` accumulator of the source
is omitted. -/
def Generator.discriminated_union (g : Generator) (t : CustomType) : Document :=
  let type_name := t.name
  let constructors := (sortedConstructors t).map (fun c =>
    let constructor_name_doc := Document.text c.name
    let fields := c.arguments.map (fun r =>
      let type_ := g.type_to_fsharp r.type_
      let type_doc := if r.type_.is_fun then type_.surround "(" ")" else type_
      match r.label with
      | some (_, arg_name) =>
        docList [Document.text arg_name, Document.text ": ", type_doc]
      | none => type_doc)
    if fields.isEmpty then constructor_name_doc
    else docList [constructor_name_doc, Document.text " of ",
      joinDoc fields (Document.text " * ")])
  let member_declarations_doc :=
    (joinDoc ((member_declarations t).map (fun p => p.2)) Document.line).nest 4
  let opacity := if t.opacity then
      ((Document.line.nest 4).append (Document.text "private ")).append (Document.line.nest 4)
    else Document.line
  let case_indent : Int := if t.opacity then 4 else 0
  docList [Document.text "type ", g.map_publicity t.publicity, Document.text type_name,
    g.type_params t, Document.text " =", opacity,
    ((joinDoc (constructors.map (fun c => docList [Document.text "| ", c]))
      Document.line).group).nest case_indent,
    Document.line.nest 4, member_declarations_doc]

/-- Lowering of a custom type declaration: record or union by the shape
classifier (`custom_type`). -/
def Generator.custom_type (g : Generator) (t : CustomType) : Document :=
  if g.is_fsharp_union_type t then g.discriminated_union t else g.record_type t

/-- A distinguished document standing for the source aborting through
`panic!`/`.expect` — states the type checker makes unreachable. -/
def panicDoc (msg : String) : Document :=
  Document.text ("<panic: " ++ msg ++ ">")

/-- Runtime helper name used for string-prefix patterns without a prefix
binding (`prelude_functions::STRING_PATTERN_PREFIX`). -/
def stringPatternPrefixName : String := "Gleam__codegen__prefix"

/-- Runtime helper name used for string-prefix patterns with a prefix
binding (`prelude_functions::STRING_PATTERN_PARTS`). -/
def stringPatternPartsName : String := "Gleam_codegen_string_parts"

/-- Tuple document: elements joined with `, ` in parentheses (`tuple`). -/
def Generator.tuple (g : Generator) (elements : List Document) : Document :=
  (joinDoc elements (Document.text ", ")).surround "(" ")"

/-- List document: elements joined with `; ` in brackets (`list`). -/
def Generator.list (g : Generator) (elements : List Document) : Document :=
  ((joinDoc elements (Document.text "; ")).group).surround "[" "]"

/-- Parenthesized, width-aware argument list (`wrap_args`). -/
def Generator.wrap_args (g : Generator) (args : List Document) : Document :=
  ((((( Document.break' "" "").append (joinDoc args ( Document.break' "," ", "))).nest 4).append
    ( Document.break' "" "")).surround "(" ")").group

/-- Constructor-application document (`construct_type`).  The
`any_arguments` inspection flag of the source is the non-emptiness of the
argument list. -/
def Generator.construct_type (g : Generator) (module : Option String) (name : String)
    (arguments : List Document) : Document :=
  let any_arguments := !arguments.isEmpty
  let argumentsDoc := joinDoc arguments ( Document.break' "," ", ")
  let argumentsDoc := (docList [ Document.break' "" "", argumentsDoc]).nest 4
  let nameDoc := match module with
    | some m => docList [Document.text m, Document.text ".", Document.text name]
    | none => Document.text name
  if any_arguments then
    (docList [nameDoc, Document.text "(", argumentsDoc, Document.break' "," "",
      Document.text ")"]).group
  else docList [nameDoc, Document.text "()"]

/-- Reference to a constructor used as a value (`type_constructor`). -/
def Generator.type_constructor (g : Generator) (type_ : FsType) (qualifier : Option String)
    (name : String) (arity : Nat) : Document :=
  if type_.is_bool && name == "True" then Document.text "true"
  else if type_.is_bool then Document.text "false"
  else if type_.is_nil then Document.text "undefined"
  else if arity = 0 then
    match qualifier with
    | some module => docList [Document.text module, Document.text ".",
        Document.text name, Document.text "()"]
    | none => docList [Document.text name, Document.text "()"]
  else
    let vars := (List.range arity).map (fun i => Document.text ("var" ++ toString i))
    let body := g.construct_type qualifier name vars
    ((((docList [Document.text "fun ", g.wrap_args vars, Document.text " -> begin",
      Document.break' "" " ", body]).nest 4).append ( Document.break' "" " ")).group).append
      (Document.text "end")

/-- Lowering of a typed constant (`constant_expression`).  The early
returns of the record arm are modelled as a chain of `Option` checks in
source order. -/
def Generator.constant_expression (g : Generator) (expression : Constant) : Document :=
  match expression with
  | .int value => Document.text value
  | .float value => Document.text value
  | .string value => g.string value
  | .tuple elements =>
    g.tuple (elements.attach.map (fun x => match x with
      | ⟨e, hmem⟩ => g.constant_expression e))
  | .list elements =>
    g.list (elements.attach.map (fun x => match x with
      | ⟨e, hmem⟩ => g.constant_expression e))
  | .record args module type_name tag type_ field_map =>
    if type_.is_bool && type_name == "True" then Document.text "true"
    else if type_.is_bool && type_name == "False" then Document.text "false"
    else if type_.is_nil then Document.text "()"
    else
      -- Genuine record constructor: exactly one constructor, constructor
      -- name equal to the type name, all fields labelled.
      let record_literal : Option Document :=
        match List.lookup type_name g.module.type_info.values with
        | some constructor =>
          match constructor.variant with
          | .record cname carity (some cfield_map) _ccount =>
            if _ccount = 1 && cname == type_name && carity = cfield_map.fields.length then
              some ((((joinDoc (args.attach.enum.map (fun p =>
                match p.2 with
                | ⟨ConstantCallArg.mk _lbl argv, hmem⟩ =>
                  let label := (List.lookup p.1 (invert_field_map cfield_map)).elim
                    (panicDoc "Index out of bounds") Document.text
                  docList [label, Document.text " = ", g.constant_expression argv]))
                (Document.text "; ")).group).surround "\x7b " " \x7d"))
            else none
          | _ => none
        | none => none
      match record_literal with
      | some doc => doc
      | none =>
        -- A bare reference to a constructor that takes arguments.
        let constructor_reference : Option Document :=
          match type_.fn_arity with
          | some arity =>
            if args.isEmpty && arity ≠ 0 then
              some (g.type_constructor type_ none type_name arity)
            else none
          | none => none
        match constructor_reference with
        | some doc => doc
        | none =>
          if field_map.isNone && args.isEmpty then Document.text tag
          else
            let field_values := args.attach.map (fun x => match x with
              | ⟨ConstantCallArg.mk _lbl argv, hmem⟩ => g.constant_expression argv)
            g.construct_type (module.map (fun mp => mp.1)) type_name field_values
  | .bitArray => Document.text "//TODO: Constant::BitArray"
  | .var module name =>
    match module with
    | none => g.santitize_name name
    | some (m, _) => docList [Document.text m, Document.text ".", g.santitize_name name]
  | .stringConcatenation left right =>
    docList [g.constant_expression left, Document.text " + ", g.constant_expression right]
  | .invalid => panicDoc "invalid constants should not reach code generation"
termination_by sizeOf expression
decreasing_by
  all_goals simp_wf
  all_goals first
    | omega
    | (have h9 := List.sizeOf_lt_of_mem hmem; simp at h9; omega)
    | (have h9 := List.sizeOf_lt_of_mem hmem; omega)

/-- Lowering of a typed pattern (`pattern`).  The fall-through of the
guarded field-map arm is written out in both branches where the guard
fails. -/
def Generator.pattern (g : Generator) (p : Pattern) : Document :=
  match p with
  | .int value => Document.text value
  | .float value => Document.text value
  | .string value => g.string value
  | .variable name => Document.text name
  | .discard name => Document.text name
  | .list elements tail =>
    let head := (joinDoc (elements.attach.map (fun x => match x with
      | ⟨e, hmem⟩ => g.pattern e)) (Document.text "; ")).surround "[" "]"
    (match tail with
    | some tl => (head.append (Document.text "::")).append (g.pattern tl)
    | none => head)
  | .tuple elems =>
    (joinDoc (elems.attach.map (fun x => match x with
      | ⟨e, hmem⟩ => g.pattern e)) (Document.text ", ")).surround "(" ")"
  | .stringPrefix left_side_string right_side_assignment left_side_assignment =>
    let suffix_binding_name : Document := match right_side_assignment with
      | .variable right => Document.text right
      | .discard _ => Document.text "_"
    (match left_side_assignment with
    | none =>
      docList [Document.text stringPatternPrefixName, Document.text " ",
        g.string left_side_string, Document.text " ", suffix_binding_name]
    | some (prefix_label, _) =>
      docList [Document.text stringPatternPartsName, Document.text " ",
        g.string left_side_string, Document.text " (", Document.text prefix_label,
        Document.text ", ", suffix_binding_name, Document.text ")"])
  | .bitArray segments =>
    (joinDoc (segments.attach.map (fun x => match x with
      | ⟨PatternBitArraySegment.mk v, hmem⟩ => g.pattern v)) (Document.text "; ")).surround "[|" "|]"
  | .varUsage name constructor =>
    (match constructor with
    | some vc =>
      (match vc.variant with
      | .moduleConstant literal => g.constant_expression literal
      | _ => Document.text name)
    | none => panicDoc "Constructor not found for variable usage")
  | .invalid => panicDoc "invalid patterns should not reach code generation"
  | .assign name pat => ((g.pattern pat).append (Document.text " as ")).append (Document.text name)
  | .constructor name cons arguments spread type_ =>
    (match cons with
    | .known pc =>
      (match pc.field_map with
      | some field_map =>
        if arguments.length = field_map.fields.length then
          let args := arguments.attach.enum.filterMap (fun pr =>
            match pr.2 with
            | ⟨PatternCallArg.mk lbl argv, hmem⟩ =>
              if spread.isSome && argv.is_discard then none
              else
                let label := match lbl with
                  | some label => some (Document.text label)
                  | none => (List.lookup pr.1 (invert_field_map field_map)).map Document.text
                label.map (fun label => docList [label, Document.text " = ", g.pattern argv]))
          (((joinDoc args (Document.text "; ")).group).surround "\x7b " " \x7d")
        else
          if type_.is_bool && name == "True" then Document.text "true"
          else if type_.is_bool && name == "False" then Document.text "false"
          else if type_.is_nil then Document.text "()"
          else
            let argsDocs := arguments.attach.map (fun x => match x with
              | ⟨PatternCallArg.mk _lbl argv, hmem⟩ => g.pattern argv)
            let argsDoc := if arguments.isEmpty then Document.text "()"
              else (joinDoc argsDocs (Document.text ", ")).surround "(" ")"
            (docList [Document.text name, argsDoc]).surround "(" ")"
      | none =>
        if type_.is_bool && name == "True" then Document.text "true"
        else if type_.is_bool && name == "False" then Document.text "false"
        else if type_.is_nil then Document.text "()"
        else
          let argsDocs := arguments.attach.map (fun x => match x with
            | ⟨PatternCallArg.mk _lbl argv, hmem⟩ => g.pattern argv)
          let argsDoc := if arguments.isEmpty then Document.text "()"
            else (joinDoc argsDocs (Document.text ", ")).surround "(" ")"
          (docList [Document.text name, argsDoc]).surround "(" ")")
    | .unknown =>
      if type_.is_bool && name == "True" then Document.text "true"
      else if type_.is_bool && name == "False" then Document.text "false"
      else if type_.is_nil then Document.text "()"
      else
        let argsDocs := arguments.attach.map (fun x => match x with
          | ⟨PatternCallArg.mk _lbl argv, hmem⟩ => g.pattern argv)
        let argsDoc := if arguments.isEmpty then Document.text "()"
          else (joinDoc argsDocs (Document.text ", ")).surround "(" ")"
        (docList [Document.text name, argsDoc]).surround "(" ")")
termination_by sizeOf p
decreasing_by
  all_goals simp_wf
  all_goals first
    | omega
    | (have h9 := List.sizeOf_lt_of_mem hmem; simp at h9; omega)
    | (have h9 := List.sizeOf_lt_of_mem hmem; omega)

mutual
/-- Guard lowering used at operand positions: binary and boolean operators
are wrapped in parentheses, other forms are not (`clause_guard`). -/
def Generator.clause_guard (g : Generator) (guard : ClauseGuard) : Document :=
  match guard with
  | .or l r => ((Document.text "(").append (g.bare_clause_guard (.or l r))).append (Document.text ")")
  | .and l r => ((Document.text "(").append (g.bare_clause_guard (.and l r))).append (Document.text ")")
  | .equals l r => ((Document.text "(").append (g.bare_clause_guard (.equals l r))).append (Document.text ")")
  | .notEquals l r => ((Document.text "(").append (g.bare_clause_guard (.notEquals l r))).append (Document.text ")")
  | .gtInt l r => ((Document.text "(").append (g.bare_clause_guard (.gtInt l r))).append (Document.text ")")
  | .gtEqInt l r => ((Document.text "(").append (g.bare_clause_guard (.gtEqInt l r))).append (Document.text ")")
  | .ltInt l r => ((Document.text "(").append (g.bare_clause_guard (.ltInt l r))).append (Document.text ")")
  | .ltEqInt l r => ((Document.text "(").append (g.bare_clause_guard (.ltEqInt l r))).append (Document.text ")")
  | .gtFloat l r => ((Document.text "(").append (g.bare_clause_guard (.gtFloat l r))).append (Document.text ")")
  | .gtEqFloat l r => ((Document.text "(").append (g.bare_clause_guard (.gtEqFloat l r))).append (Document.text ")")
  | .ltFloat l r => ((Document.text "(").append (g.bare_clause_guard (.ltFloat l r))).append (Document.text ")")
  | .ltEqFloat l r => ((Document.text "(").append (g.bare_clause_guard (.ltEqFloat l r))).append (Document.text ")")
  | .addInt l r => ((Document.text "(").append (g.bare_clause_guard (.addInt l r))).append (Document.text ")")
  | .addFloat l r => ((Document.text "(").append (g.bare_clause_guard (.addFloat l r))).append (Document.text ")")
  | .subInt l r => ((Document.text "(").append (g.bare_clause_guard (.subInt l r))).append (Document.text ")")
  | .subFloat l r => ((Document.text "(").append (g.bare_clause_guard (.subFloat l r))).append (Document.text ")")
  | .multInt l r => ((Document.text "(").append (g.bare_clause_guard (.multInt l r))).append (Document.text ")")
  | .multFloat l r => ((Document.text "(").append (g.bare_clause_guard (.multFloat l r))).append (Document.text ")")
  | .divInt l r => ((Document.text "(").append (g.bare_clause_guard (.divInt l r))).append (Document.text ")")
  | .divFloat l r => ((Document.text "(").append (g.bare_clause_guard (.divFloat l r))).append (Document.text ")")
  | .remainderInt l r => ((Document.text "(").append (g.bare_clause_guard (.remainderInt l r))).append (Document.text ")")
  | .constant c => g.bare_clause_guard (.constant c)
  | .not e => g.bare_clause_guard (.not e)
  | .var n => g.bare_clause_guard (.var n)
  | .tupleIndex t i => g.bare_clause_guard (.tupleIndex t i)
  | .fieldAccess c l => g.bare_clause_guard (.fieldAccess c l)
  | .moduleSelect lit => g.bare_clause_guard (.moduleSelect lit)
termination_by 2 * sizeOf guard + 1
decreasing_by
  all_goals simp_wf
  all_goals omega

/-- Guard lowering without outer parentheses (`bare_clause_guard`); the
commented-out tuple-index/field-access/module-select arms of the source
fall to the TODO catch-all. -/
def Generator.bare_clause_guard (g : Generator) (guard : ClauseGuard) : Document :=
  match guard with
  | .not expression => docList [Document.text "not ", g.bare_clause_guard expression]
  | .or left right =>
    ((g.clause_guard left).append (Document.text " || ")).append (g.clause_guard right)
  | .and left right =>
    ((g.clause_guard left).append (Document.text " && ")).append (g.clause_guard right)
  | .equals left right =>
    ((g.clause_guard left).append (Document.text " = ")).append (g.clause_guard right)
  | .notEquals left right =>
    ((g.clause_guard left).append (Document.text " <> ")).append (g.clause_guard right)
  | .gtInt left right =>
    ((g.clause_guard left).append (Document.text " > ")).append (g.clause_guard right)
  | .gtFloat left right =>
    ((g.clause_guard left).append (Document.text " > ")).append (g.clause_guard right)
  | .gtEqInt left right =>
    ((g.clause_guard left).append (Document.text " >= ")).append (g.clause_guard right)
  | .gtEqFloat left right =>
    ((g.clause_guard left).append (Document.text " >= ")).append (g.clause_guard right)
  | .ltInt left right =>
    ((g.clause_guard left).append (Document.text " < ")).append (g.clause_guard right)
  | .ltFloat left right =>
    ((g.clause_guard left).append (Document.text " < ")).append (g.clause_guard right)
  | .ltEqInt left right =>
    ((g.clause_guard left).append (Document.text " =< ")).append (g.clause_guard right)
  | .ltEqFloat left right =>
    ((g.clause_guard left).append (Document.text " =< ")).append (g.clause_guard right)
  | .addInt left right =>
    ((g.clause_guard left).append (Document.text " + ")).append (g.clause_guard right)
  | .addFloat left right =>
    ((g.clause_guard left).append (Document.text " + ")).append (g.clause_guard right)
  | .subInt left right =>
    ((g.clause_guard left).append (Document.text " - ")).append (g.clause_guard right)
  | .subFloat left right =>
    ((g.clause_guard left).append (Document.text " - ")).append (g.clause_guard right)
  | .multInt left right =>
    ((g.clause_guard left).append (Document.text " * ")).append (g.clause_guard right)
  | .multFloat left right =>
    ((g.clause_guard left).append (Document.text " * ")).append (g.clause_guard right)
  | .divInt left right =>
    ((g.clause_guard left).append (Document.text " / ")).append (g.clause_guard right)
  | .divFloat left right =>
    ((g.clause_guard left).append (Document.text " / ")).append (g.clause_guard right)
  | .remainderInt left right =>
    ((g.clause_guard left).append (Document.text " % ")).append (g.clause_guard right)
  | .var name => Document.text name
  | .constant c => g.constant_expression c
  | .tupleIndex _ _ | .fieldAccess _ _ | .moduleSelect _ =>
    docList [Document.text "// TODO: Implement other guard types"]
termination_by 2 * sizeOf guard
decreasing_by
  all_goals simp_wf
  all_goals omega
end

/-- The binary/boolean operator forms of a guard: exactly the variants the
lowering parenthesizes at operand positions. -/
def ClauseGuard.isBinaryOperator : ClauseGuard → Bool
  | .or _ _ | .and _ _ | .equals _ _ | .notEquals _ _
  | .gtInt _ _ | .gtEqInt _ _ | .ltInt _ _ | .ltEqInt _ _
  | .gtFloat _ _ | .gtEqFloat _ _ | .ltFloat _ _ | .ltEqFloat _ _
  | .addInt _ _ | .addFloat _ _ | .subInt _ _ | .subFloat _ _
  | .multInt _ _ | .multFloat _ _ | .divInt _ _ | .divFloat _ _
  | .remainderInt _ _ => true
  | .constant _ | .not _ | .var _ | .tupleIndex _ _ | .fieldAccess _ _
  | .moduleSelect _ => false

/-- Combines the optional guard and any additional guards of a match arm:
every guard is parenthesized when more than one is combined with `&&`, and
a non-empty combination is prefixed with ` when ` (`optional_clause_guard`). -/
def Generator.optional_clause_guard (g : Generator) (guard : Option ClauseGuard)
    (additional_guards : List Document) : Document :=
  let guard_doc := guard.map (fun gd => g.bare_clause_guard gd)
  let guards_count := (match guard_doc with | some _ => 1 | none => 0) + additional_guards.length
  let guards_docs := (additional_guards ++ guard_doc.toList).map (fun gd =>
    if guards_count > 1 then gd.surround "(" ")" else gd)
  let doc := joinDoc guards_docs (Document.text " && ")
  if doc.isEmptyDoc then doc else (Document.text " when ").append doc

/-- The bindable name of a function parameter, `_` for discards (`arg_name`). -/
def Generator.arg_name (g : Generator) (arg : TypedArg) : Document :=
  match arg.names.get_variable_name with
  | some n => Document.text n
  | none => Document.text "_"

/-- Function-definition argument list with type annotations (`fun_args`). -/
def Generator.fun_args (g : Generator) (arguments : List TypedArg) : Document :=
  if arguments.isEmpty then Document.text "()"
  else (joinDoc (arguments.map (fun arg =>
    (docList [g.arg_name arg, Document.text ": ", g.type_to_fsharp arg.type_]).surround "(" ")"))
    (Document.text " ")).group

/-- Wraps a document in an indented `begin`/`end` region
(`wrap_in_begin_end`). -/
def Generator.wrap_in_begin_end (g : Generator) (expr : Document) : Document :=
  ((((Document.text "begin").append Document.line).nest 4).append
    ((expr.nest 4).group)).append (Document.line.append (Document.text "end"))

mutual
/-- Lowering of a typed expression (`expression`). -/
def Generator.expression (g : Generator) (expr : TypedExpr) : Document :=
  match expr with
  | .int value => Document.text value
  | .float value => Document.text value
  | .string value => g.string value
  | .block stmts => g.block stmts
  | .pipeline assignments finally' => g.pipeline assignments finally'
  | .var name _constructor =>
    (match name with
    | "Nil" => Document.text "()"
    | "True" => Document.text "true"
    | "False" => Document.text "false"
    | _ => Document.text name)
  | .fn args body => g.fun' args body
  | .list elements =>
    (joinDoc (elements.attach.map (fun x => match x with
      | ⟨e, hmem⟩ => g.expression e)) (Document.text "; ")).surround "[" "]"
  | .call fun' args =>
    let fc := g.function_call fun' args
    (match fun' with
    | .var _ (ValueConstructor.mk (ValueConstructorVariant.record _ arity (some field_map) 1) _) =>
      -- Every constructor field must have a label to be a record type.
      if arity = field_map.fields.length then g.record_instantiation field_map args
      else fc
    | _ => fc)
  | .binOp name left right => g.binop name left right
  | .case' subjects clauses => g.case' subjects clauses
  | .tuple elems =>
    g.tuple (elems.attach.map (fun x => match x with
      | ⟨e, hmem⟩ => g.expression e))
  | .negateInt value =>
    -- Special case for double negation.
    let vd := g.expression value
    (match value with
    | .negateInt _ => (Document.text "-").append (vd.surround "(" ")")
    | _ => (Document.text "-").append vd)
  | .todo message => g.todo message
  | .panic message => g.panic_ message
  | .recordAccess label record => g.record_access record label
  | .recordUpdate args spread =>
    -- A pipeline as the update target needs parentheses.
    let sd := g.expression spread
    let old_var_name := match spread with
      | .pipeline _ _ => sd.surround "(" ")"
      | _ => sd
    let new_values := args.attach.map (fun x => match x with
      | ⟨RecordUpdateArg.mk lbl value, hmem⟩ =>
        -- A pipeline as the new value is indented past the `with` keyword.
        let vd := g.expression value
        let child_expr := match value with
          | .pipeline _ _ => vd.nest 1
          | _ => vd
        (docList [Document.text lbl, Document.text " = ", child_expr]).group)
    docList [Document.text "\x7b ", old_var_name, Document.text " with ",
      (joinDoc new_values (Document.text "; ")).forceBreak, Document.text " \x7d"]
  | .moduleSelect => Document.text "// TODO: TypedExpr::ModuleSelect"
  | .tupleIndex tuple index => g.tuple_index tuple index
  | .bitArray => Document.text "// TODO: TypedExpr::BitArray"
  | .negateBool _ => Document.text "// TODO: TypedExpr::NegateBool"
  | .invalid => Document.text "// TODO: TypedExpr::Invalid"
termination_by 3 * sizeOf expr
decreasing_by
  all_goals simp_wf
  all_goals (try omega)
  all_goals (have h9 := List.sizeOf_lt_of_mem hmem; simp at h9; omega)

/-- Lowering of one statement, paired with the bound name it makes
available as the block's trailing value, if any (`statement`). -/
def Generator.statement (g : Generator) (s : TypedStatement) : Document × Option Document :=
  match s with
  | .expression expr => (g.expression expr, none)
  | .assignment (Assignment.mk (Pattern.stringPrefix pfx right_side_assignment maybe_label) value) =>
    let pair : Document × Option Document := match right_side_assignment with
      | .variable right => (Document.text right, some (Document.text right))
      | .discard _ => (Document.text "_", some (g.expression value))
    (docList [Document.text "let (", Document.text stringPatternPartsName,
      Document.text " ", g.string pfx, Document.text " (",
      (match maybe_label with
        | some (prefix_label, _) => docList [Document.text prefix_label, Document.text ", "]
        | none => Document.text "_, "),
      pair.1, Document.text ")) = ", g.expression value], pair.2)
  | .assignment (Assignment.mk pat value) =>
    let info := g.get_assignment_info (Assignment.mk pat value)
    let doc := match value with
      | .case' _ _ =>
        docList [Document.text "let ", info.1, Document.text " = ",
          Document.line.nest 4, (info.2.group).nest 4]
      | _ => docList [Document.text "let ", info.1, Document.text " = ", info.2]
    (doc, some info.1)
  | .use' => (docList [Document.text "// TODO: Implement use statements"], none)
termination_by 3 * sizeOf s
decreasing_by
  all_goals simp_wf
  all_goals omega

/-- The pattern document and value document of an assignment
(`get_assignment_info`). -/
def Generator.get_assignment_info (g : Generator) (assignment : Assignment) :
    Document × Document :=
  match assignment with
  | .mk pat value => (g.pattern pat, g.expression value)
termination_by 3 * sizeOf assignment + 1
decreasing_by
  all_goals simp_wf
  all_goals omega

/-- Lowering of a statement sequence (`statements`): statement documents
joined by lines, with the last bound name appended as a trailing
expression unless the given return type is the nil type. -/
def Generator.statements (g : Generator) (s : List TypedStatement)
    (return_type : Option FsType) : Document :=
  let pairs := s.attach.map (fun x => match x with | ⟨st, hmem⟩ => g.statement st)
  let res := pairs.map (fun p => p.1)
  let last_var := pairs.foldl (fun _ p => p.2) (none : Option Document)
  -- A block cannot end on an assignment in F# unless it returns Unit.
  let res := match last_var with
    | some lv =>
      (match return_type with
      | some rt => if !rt.is_nil then res ++ [lv] else res
      | none => res ++ [lv])
    | none => res
  (joinDoc res Document.line).group
termination_by 3 * sizeOf s + 1
decreasing_by
  all_goals simp_wf
  all_goals (have h9 := List.sizeOf_lt_of_mem hmem; omega)

/-- Lowering of a block expression (`block`): always invoked with no
return type. -/
def Generator.block (g : Generator) (s : List TypedStatement) : Document :=
  ((((Document.text "begin").append Document.line).nest 4).append
    (((g.statements s none).nest 4).group)).append
    (Document.line.append (Document.text "end"))
termination_by 3 * sizeOf s + 2
decreasing_by
  all_goals simp_wf
  all_goals omega

/-- Lowering of an anonymous function (`fun`): the body statements are
lowered with no return type. -/
def Generator.fun' (g : Generator) (args : List TypedArg) (body : List TypedStatement) :
    Document :=
  (docList [Document.text "fun", g.fun_args args, Document.text " -> begin ",
    (g.statements body none).nest 4, Document.break' "" " ", Document.text "end"]).group
termination_by 3 * sizeOf body + 2
decreasing_by
  all_goals simp_wf
  all_goals omega

/-- Lowering of a pipeline into ordered intermediate bindings inside a
`begin`/`end` region (`pipeline`). -/
def Generator.pipeline (g : Generator) (assignments : List Assignment)
    (finally' : TypedExpr) : Document :=
  let documents := (assignments.attach.map (fun x => match x with
    | ⟨a, hmem⟩ =>
      let info := g.get_assignment_info a
      [docList [Document.text "let ", info.1, Document.text " = ", info.2],
        Document.line])).flatten
  let documents := documents ++ [(g.expression finally').surround "(" ")"]
  g.wrap_in_begin_end (docList documents)
termination_by 3 * (sizeOf assignments + sizeOf finally') + 1
decreasing_by
  all_goals simp_wf
  all_goals (try omega)
  all_goals (have h9 := List.sizeOf_lt_of_mem hmem; omega)

/-- Lowering of a `case` expression (`case`). -/
def Generator.case' (g : Generator) (subjects : List TypedExpr) (clauses : List Clause) :
    Document :=
  let subjects_docs := subjects.attach.map (fun x => match x with
    | ⟨s, hmem⟩ => g.expression s)
  -- A single subject is printed bare, several as a tuple.
  let subjects_doc := match subjects_docs with
    | [d] => d
    | _ => g.tuple subjects_docs
  let clauses_doc := (joinDoc (clauses.attach.map (fun x => match x with
    | ⟨c, hmem⟩ => (Document.text "| ").append ((g.clause c).group))) Document.line).group
  (docList [(docList [Document.text "match ", subjects_doc, Document.text " with"]).group,
    Document.line, clauses_doc]).group
termination_by 3 * (sizeOf subjects + sizeOf clauses) + 1
decreasing_by
  all_goals simp_wf
  all_goals (try omega)
  all_goals (have h9 := List.sizeOf_lt_of_mem hmem; omega)

/-- Lowering of one match arm (`clause`): patterns (with alternatives),
optional guard, and consequence. -/
def Generator.clause (g : Generator) (c : Clause) : Document :=
  match c with
  | .mk pat alternative_patterns guard then' =>
    let additional_guards : List Document := []
    let patterns_doc := joinDoc ((pat :: alternative_patterns).map (fun patterns =>
      match patterns with
      | [p] => g.pattern p
      | _ => g.tuple (patterns.map (fun p => g.pattern p)))) (Document.text " | ")
    let guard_doc := g.optional_clause_guard guard additional_guards
    let then_doc := g.clause_consequence then'
    patterns_doc.append ((guard_doc.append (Document.text " ->")).append
      (((Document.line.append then_doc).nest 4).group))
termination_by 3 * sizeOf c
decreasing_by
  all_goals simp_wf
  all_goals omega

/-- Lowering of a match-arm consequence (`clause_consequence`). -/
def Generator.clause_consequence (g : Generator) (consequence : TypedExpr) : Document :=
  let ed := g.expression consequence
  match consequence with
  | .block stmts => g.statement_sequence stmts
  | _ => ed
termination_by 3 * sizeOf consequence + 1
decreasing_by
  all_goals simp_wf
  all_goals omega

/-- Lowering of a statement sequence inside a match arm
(`statement_sequence`). -/
def Generator.statement_sequence (g : Generator) (statements : List TypedStatement) :
    Document :=
  let documents := statements.attach.map (fun x => match x with
    | ⟨e, hmem⟩ => ((g.statement e).1).group)
  let documents := joinDoc documents Document.line
  if statements.length = 1 then documents else documents.forceBreak
termination_by 3 * sizeOf statements + 1
decreasing_by
  all_goals simp_wf
  all_goals (have h9 := List.sizeOf_lt_of_mem hmem; omega)

/-- Lowering of tuple-index access (`tuple_index`). -/
def Generator.tuple_index (g : Generator) (tuple : TypedExpr) (index : Nat) : Document :=
  docList [g.expression tuple, Document.text ".Item", Document.text (toString (index + 1))]
termination_by 3 * sizeOf tuple + 1
decreasing_by
  all_goals simp_wf
  all_goals omega

/-- Lowering of a record-constructor call into record-literal syntax
(`record_instantiation`). -/
def Generator.record_instantiation (g : Generator) (field_map : FieldMap)
    (args : List ExprCallArg) : Document :=
  let inv := invert_field_map field_map
  let argsDocs := args.attach.enum.map (fun pr => match pr.2 with
    | ⟨ExprCallArg.mk _lbl value, hmem⟩ =>
      let label := match List.lookup pr.1 inv with
        | some l => g.santitize_name l
        | none => panicDoc "Index out of bounds"
      docList [label, Document.text " = ", g.expression value])
  ((joinDoc argsDocs (Document.text "; ")).group).surround "\x7b " " \x7d"
termination_by 3 * sizeOf args + 1
decreasing_by
  all_goals simp_wf
  all_goals (have h9 := List.sizeOf_lt_of_mem hmem; simp at h9; omega)

/-- Lowering of an ordinary function application (`function_call`). -/
def Generator.function_call (g : Generator) (fun' : TypedExpr) (args : List ExprCallArg) :
    Document :=
  let argsDoc := if args.isEmpty then Document.text "()"
    else (Document.text " ").append ((joinDoc (args.attach.map (fun x => match x with
      | ⟨ExprCallArg.mk _lbl value, hmem⟩ => (g.expression value).surround "(" ")"))
      (Document.text " ")).group)
  let fun_expr := g.expression fun'
  -- An immediately-invoked function expression needs parentheses.
  let fun_expr := match fun' with
    | .fn _ _ => fun_expr.surround "(" ")"
    | _ => fun_expr
  (fun_expr.append argsDoc).group
termination_by 3 * (sizeOf fun' + sizeOf args) + 1
decreasing_by
  all_goals simp_wf
  all_goals (try omega)
  all_goals (have h9 := List.sizeOf_lt_of_mem hmem; simp at h9; omega)

/-- Lowering of record-field access (`record_access`). -/
def Generator.record_access (g : Generator) (record : TypedExpr) (label : String) :
    Document :=
  docList [g.expression record, Document.text ".", Document.text label]
termination_by 3 * sizeOf record + 1
decreasing_by
  all_goals simp_wf
  all_goals omega

/-- Lowering of a `todo` expression (`todo`). -/
def Generator.todo (g : Generator) (message : Option TypedExpr) : Document :=
  match message with
  | some m => (Document.text "failwith ").append ((g.expression m).surround "(" ")")
  | none => Document.text "failwith \"Not implemented\""
termination_by 3 * sizeOf message + 1
decreasing_by
  all_goals simp_wf
  all_goals omega

/-- Lowering of a `panic` expression (`panic_`). -/
def Generator.panic_ (g : Generator) (message : Option TypedExpr) : Document :=
  match message with
  | some m => (Document.text "failwith ").append ((g.expression m).surround "(" ")")
  | none => Document.text "failwith \"Panic encountered\""
termination_by 3 * sizeOf message + 1
decreasing_by
  all_goals simp_wf
  all_goals omega

/-- Lowering of a binary-operator expression (`binop`). -/
def Generator.binop (g : Generator) (name : BinOp) (left right : TypedExpr) : Document :=
  let operand := match name with
    | .and => "&&"
    | .or => "||"
    | .eq => "="
    | .notEq => "<>"
    | .ltInt | .ltFloat => "<"
    | .ltEqInt | .ltEqFloat => "<="
    | .gtInt | .gtFloat => ">"
    | .gtEqInt | .gtEqFloat => ">="
    | .addInt | .addFloat => "+"
    | .subInt | .subFloat => "-"
    | .multInt | .multFloat => "*"
    | .divInt | .divFloat => "/"
    | .remainderInt => "%"
    | .concatenate => "+"
  ((((g.expression left).append (Document.text " ")).append
    (Document.text operand)).append (Document.text " ")).append (g.expression right)
termination_by 3 * (sizeOf left + sizeOf right) + 1
decreasing_by
  all_goals simp_wf
  all_goals omega
end

/-- A typed function declaration (`TypedFunction`). -/
structure Function where
  name : Option (SrcSpan × String)
  arguments : List TypedArg
  body : List TypedStatement
  return_type : FsType
  documentation : Option (SrcSpan × String)
  deprecation : Deprecation
  external_fsharp : Option (String × String × Bool)
  publicity : Publicity

/-- Lowering of a function declaration (`function`).  The source's unused
bindings of the rendered return type and argument string are omitted, and
the `external_files` insertion is not modelled. -/
def Generator.function (g : Generator) (f : Function) : Document :=
  let name := match f.name with
    | some (_, n) => n
    | none => "_"
  let body := match f.external_fsharp with
    | some (module_name, fn_name, _) =>
      let calling_args := if f.arguments.isEmpty then Document.text "()"
        else joinDoc (f.arguments.map (fun arg => g.arg_name arg)) (Document.text " ")
      -- A module qualifier that is a file path means the external name is
      -- already fully qualified.
      let qualifier := if module_name.contains '/' || module_name.contains '\\' then
          Document.nil
        else docList [Document.text module_name, Document.text "."]
      docList [qualifier, Document.text fn_name, Document.text " ", calling_args]
    | none =>
      docList [Document.text "begin",
        ((Document.line.append (g.statements f.body (some f.return_type))).nest 4).group,
        Document.line, Document.text "end"]
  let args := g.fun_args f.arguments
  let docs := match f.documentation with
    | some (_, doc) =>
      let comment_lines := doc.splitOn "\n"
      -- Remove any trailing empty line.
      let comment_lines := if comment_lines.getLast? == some "" then
          comment_lines.dropLast
        else comment_lines
      (joinDoc (comment_lines.map (fun doc_line =>
        docList [Document.text "///", Document.text doc_line])) Document.line).append
        Document.line
    | none => Document.nil
  let deprecation_doc := match f.deprecation with
    | .deprecated message =>
      docList [Document.text "[<System.Obsolete(", g.string message,
        Document.text ")>]", Document.line]
    | .notDeprecated => Document.nil
  -- Entry-point handling for a function named `main`.
  let ea : Document × Document := if name = "main" then
      match f.arguments with
      | [arg] =>
        (match arg.names with
        | .named n =>
          ((Document.text "[<EntryPoint>]").append Document.line,
            Document.text ("(" ++ n ++ ": string[])"))
        | .discard _ =>
          ((Document.text "[<EntryPoint>]").append Document.line,
            Document.text "(_: string[])")
        | _ => (Document.nil, args))
      | [] =>
        ((Document.text "[<EntryPoint>]").append Document.line,
          Document.text "(_: string[])")
      | _ => (Document.nil, args)
    else (Document.nil, args)
  docList [docs, deprecation_doc, ea.1, Document.text "let ",
    g.map_publicity f.publicity, Document.text name, Document.text " ", ea.2,
    Document.text " = ", body]

/-- Modelled from the spec: the file-system collaborator of spec section 6
(`write(path, text)` and `exists(path)` only), instrumented with a log of
the writes performed so that write-count properties can be stated. -/
structure FileSystem where
  files : List (String × String)
  log : List (String × String)

/-- Whether a path currently exists. -/
def FileSystem.exists (fs : FileSystem) (path : String) : Bool :=
  fs.files.any (fun p => p.1 == path)

/-- Writes a file (later writes shadow earlier ones) and records the write
in the log. -/
def FileSystem.write (fs : FileSystem) (path text : String) : FileSystem :=
  ⟨(path, text) :: fs.files, fs.log ++ [(path, text)]⟩

/-- Path join of the output directory with a file name (`Utf8Path::join`). -/
def pathJoin (dir name : String) : String :=
  dir ++ "/" ++ name

/-- A compiled module as seen by the orchestrators (`build::Module`); only
the hierarchical name is consulted by the embedded functions. -/
structure BuildModule where
  name : String

/-- Whether TypeScript declaration files are emitted. -/
inductive TypeScriptDeclarations where
  | none'
  | emit
deriving DecidableEq, Repr

/-- The JavaScript code generator (`JavaScript` in `codegen.rs`); the
`target_support` field does not influence the embedded functions and is
omitted. -/
structure JavaScript where
  output_directory : String
  prelude_location : String
  typescript : TypeScriptDeclarations

/-- Writes the shared prelude re-export stub (and, when declarations are
emitted, its declaration twin), skipping each write when the file already
exists (`JavaScript::write_prelude`).  The existence check avoids
`gleam.mjs` writes that confuse watchers and HMR build tools. -/
def JavaScript.write_prelude (j : JavaScript) (writer : FileSystem) : FileSystem :=
  let rexport := "export * from \"" ++ j.prelude_location ++ "\";\n"
  let prelude_path := pathJoin j.output_directory "gleam.mjs"
  let writer := if !(writer.exists prelude_path) then
      writer.write prelude_path rexport
    else writer
  if j.typescript = TypeScriptDeclarations.emit then
    let rexport := rexport.replace ".mjs" ".d.mts"
    let prelude_declaration_path := pathJoin j.output_directory "gleam.d.mts"
    if !(writer.exists prelude_declaration_path) then
      writer.write prelude_declaration_path rexport
    else writer
  else writer

/-- Writes a module's TypeScript declaration file to
`output_directory.join("\x7bjs_name\x7d.d.mts")` (`JavaScript::ts_declaration`).
The declaration text itself comes from `javascript::ts_declaration`, which
lives outside the embedded crate and is passed in as a function of the
module name. -/
def JavaScript.ts_declaration (j : JavaScript) (tsOutput : String → String)
    (writer : FileSystem) (js_name : String) : FileSystem :=
  let name := js_name ++ ".d.mts"
  let path := pathJoin j.output_directory name
  writer.write path (tsOutput js_name)

/-- Writes a module's JavaScript source file to
`output_directory.join("\x7bjs_name\x7d.mjs")` (`JavaScript::js_module`).
The module text itself comes from `javascript::module`, which lives
outside the embedded crate and is passed in as a function of the module
name. -/
def JavaScript.js_module (j : JavaScript) (jsOutput : String → String)
    (writer : FileSystem) (js_name : String) : FileSystem :=
  let name := js_name ++ ".mjs"
  let path := pathJoin j.output_directory name
  writer.write path (jsOutput js_name)

/-- The body of the module loop in `JavaScript::render`: the module's
declaration file is written when declarations are emitted, then its source
file is written unconditionally. -/
def JavaScript.writeModuleFiles (j : JavaScript) (jsOutput tsOutput : String → String)
    (w : FileSystem) (m : BuildModule) : FileSystem :=
  let js_name := m.name
  let w := if j.typescript = TypeScriptDeclarations.emit then
      j.ts_declaration tsOutput w js_name
    else w
  j.js_module jsOutput w js_name

/-- `JavaScript::render`: each module's files are written in turn, then
the prelude stub.  The `Result` error plumbing of the source is omitted:
the file-system model is total, so every write succeeds and the `?`
operators never return early. -/
def JavaScript.render (j : JavaScript) (jsOutput tsOutput : String → String)
    (writer : FileSystem) (modules : List BuildModule) : FileSystem :=
  j.write_prelude (modules.foldl (j.writeModuleFiles jsOutput tsOutput) writer)

/-- Erlang-specific package configuration consulted by the manifest
generator. -/
structure ErlangConfig where
  application_start_module : Option String
  extra_applications : List String

/-- Package metadata (`PackageConfig`); the dependency maps are embedded as
their key lists, whose order models the unspecified map iteration order. -/
structure PackageConfig where
  name : String
  version : String
  description : String
  dependencies : List String
  dev_dependencies : List String
  erlang : ErlangConfig

/-- Configuration of the Erlang application-manifest generator. -/
structure ErlangAppCodegenConfiguration where
  include_dev_deps : Bool
  package_name_overrides : List (String × String)

/-- The Erlang application-manifest generator (`ErlangApp`). -/
structure ErlangApp where
  output_directory : String
  config : ErlangAppCodegenConfiguration

/-- The inner `tuple` helper of `ErlangApp::render`. -/
def erlangTuple (key value : String) : String :=
  "    \x7b" ++ key ++ ", " ++ value ++ "\x7d,\n"

/-- The manifest text rendered by `ErlangApp::render`: start-module tuple,
version, sorted applications, description, sorted module list. -/
def ErlangApp.render_text (app : ErlangApp) (config : PackageConfig)
    (modules : List BuildModule) : String :=
  let start_module := match config.erlang.application_start_module with
    | some module => erlangTuple "mod" ("\x7b'" ++ module.replace "/" "@" ++ "', []\x7d")
    | none => ""
  let modulesStr := String.intercalate ",\n               "
    (List.insertionSort (fun a b => a ≤ b) (modules.map (fun m => m.name.replace "/" "@")))
  let applications := String.intercalate ",\n                    "
    (List.insertionSort (fun a b => a ≤ b)
      (((config.dependencies ++
          (if app.config.include_dev_deps then config.dev_dependencies else [])).map
        (fun name => ((List.lookup name app.config.package_name_overrides).getD name)))
        ++ config.erlang.extra_applications))
  "\x7bapplication, " ++ config.name ++ ", [\n" ++ start_module ++
    "    \x7bvsn, \"" ++ config.version ++ "\"\x7d,\n    \x7bapplications, [" ++
    applications ++ "]\x7d,\n    \x7bdescription, \"" ++ config.description ++
    "\"\x7d,\n    \x7bmodules, [" ++ modulesStr ++ "]\x7d,\n    \x7bregistered, []\x7d\n]\x7d.\n"

/-- `ErlangApp::render`: writes the manifest text to
`<output_directory>/<package>.app`. -/
def ErlangApp.render (app : ErlangApp) (writer : FileSystem) (config : PackageConfig)
    (modules : List BuildModule) : FileSystem :=
  writer.write (pathJoin app.output_directory (config.name ++ ".app"))
    (app.render_text config modules)

/-! Example inputs used by the witnesses. -/

/-- A generator over an empty module, for concrete examples. -/
def exGen : Generator := { module := { name := "m", type_info := { values := [] } } }

/-- The spec's record example: `type Person { Person(name: String, age: Int) }`. -/
def exPerson : CustomType :=
  { name := "Person", publicity := .public, opacity := false, typed_parameters := [],
    constructors := [{ name := "Person", arguments := [
      { label := some (⟨0, 0⟩, "name"), type_ := .named "gleam" "String" [] },
      { label := some (⟨0, 0⟩, "age"), type_ := .named "gleam" "Int" [] }] }] }

/-- `exPerson` with different visibility but the same shape. -/
def exPerson2 : CustomType :=
  { exPerson with publicity := .private' }

/-- The `Circle(radius: Float, label: String)` constructor of the spec's
union example. -/
def exCircle : RecordConstructor :=
  { name := "Circle", arguments := [
    { label := some (⟨0, 0⟩, "radius"), type_ := .named "gleam" "Float" [] },
    { label := some (⟨0, 0⟩, "label"), type_ := .named "gleam" "String" [] }] }

/-- The `Square(side: Float, label: String)` constructor of the spec's
union example. -/
def exSquare : RecordConstructor :=
  { name := "Square", arguments := [
    { label := some (⟨0, 0⟩, "side"), type_ := .named "gleam" "Float" [] },
    { label := some (⟨0, 0⟩, "label"), type_ := .named "gleam" "String" [] }] }

/-- The spec's union example with a shared `label` field:
`type Shape { Circle(radius: Float, label: String) Square(side: Float, label: String) }`. -/
def exShape : CustomType :=
  { name := "Shape", publicity := .public, opacity := false, typed_parameters := [],
    constructors := [exCircle, exSquare] }

/-! Claim C1: the type-shape classifier. -/

/-- C1: the classifier returns the record shape (`is_fsharp_union_type`
is `false`) exactly when the type has one constructor whose name equals the
type name, with a non-empty, fully labelled argument list; and the result
depends only on the declaration's name and constructor list. -/
theorem claim_C1 (g : Generator) (t : CustomType) :
    (g.is_fsharp_union_type t = false ↔
      (∃ c, t.constructors = [c] ∧ c.name = t.name ∧ c.arguments ≠ [] ∧
        ∀ a ∈ c.arguments, a.label ≠ none)) ∧
    (∀ t' : CustomType, t.name = t'.name → t.constructors = t'.constructors →
      g.is_fsharp_union_type t = g.is_fsharp_union_type t') := by
  constructor
  · rcases h : t.constructors with _ | ⟨c, rest⟩
    · simp [Generator.is_fsharp_union_type, h]
    · rcases rest with _ | ⟨c2, rest2⟩
      · simp [Generator.is_fsharp_union_type, h]
        tauto
      · simp [Generator.is_fsharp_union_type, h]
  · intro t' hn hc
    unfold Generator.is_fsharp_union_type
    rw [hn, hc]

/-- C1 witness: `exPerson` classifies as a record, and the classification
agrees on `exPerson2`, which has the same shape. -/
theorem claim_C1_witness :
    exGen.is_fsharp_union_type exPerson = false ∧
    exGen.is_fsharp_union_type exPerson = exGen.is_fsharp_union_type exPerson2 :=
  ⟨(claim_C1 exGen exPerson).1.mpr
      ⟨{ name := "Person", arguments := [
          { label := some (⟨0, 0⟩, "name"), type_ := .named "gleam" "String" [] },
          { label := some (⟨0, 0⟩, "age"), type_ := .named "gleam" "Int" [] }] },
        rfl, rfl, by simp, by simp⟩,
    (claim_C1 exGen exPerson).2 exPerson2 rfl rfl⟩

/-! Claims C3 and C10: the block trailing-value rule. -/

/-- A fold that keeps only the image of the last element reduces to the
last element's image. -/
lemma foldl_overwrite {α β : Type _} (l : List α) (f : α → β) (init : β) :
    l.foldl (fun _ x => f x) init = l.getLast?.elim init f := by
  induction l generalizing init with
  | nil => simp
  | cons a t ih =>
    rw [List.foldl_cons, ih]
    cases t with
    | nil => simp
    | cons b t' =>
      rw [List.getLast?_cons_cons]
      cases ht : (b :: t').getLast? with
      | none => simp [List.getLast?_eq_none_iff] at ht
      | some x => simp

/-- Closed form of `statements`: the statement documents joined by lines,
with the last statement's bound name appended unless the return type is
present and nil. -/
lemma statements_eq (g : Generator) (s : List TypedStatement)
    (return_type : Option FsType) :
    g.statements s return_type =
      Document.group (joinDoc
        (match s.getLast?.elim none (fun st => (g.statement st).2) with
        | some lv =>
          (match return_type with
           | some rt =>
             if !rt.is_nil then (s.map (fun st => (g.statement st).1)) ++ [lv]
             else s.map (fun st => (g.statement st).1)
           | none => (s.map (fun st => (g.statement st).1)) ++ [lv])
        | none => s.map (fun st => (g.statement st).1)) Document.line) := by
  unfold Generator.statements
  rw [List.attach_map_coe]
  simp only [List.map_map, foldl_overwrite, List.getLast?_map, Function.comp]
  cases s.getLast? <;> rfl

/-- A statement `let x = 1`, for concrete examples. -/
def exStmtLet : TypedStatement := .assignment (.mk (.variable "x") (.int "1"))

/-- A function `f` with declared return type Int and body `let x = 1`. -/
def exFnInt : Function :=
  ⟨some (⟨0, 0⟩, "f"), [], [exStmtLet], .named "gleam" "Int" [], none,
    .notDeprecated, none, .public⟩

/-- A function `gg` with declared return type Nil and body `let x = 1`. -/
def exFnNil : Function :=
  ⟨some (⟨0, 0⟩, "gg"), [], [exStmtLet], .named "gleam" "Nil" [], none,
    .notDeprecated, none, .public⟩

/-- C3: for a statement sequence ending in an assignment, lowering against
the function's declared return type appends the bound name as a trailing
expression exactly when the return type is not nil; concretely, the body
of a function returning Int ends with the bound name `x` and the same body
in a Nil-returning function does not. -/
theorem claim_C3 (g : Generator) (s : List TypedStatement) (st : TypedStatement)
    (v : Document) (rt : FsType)
    (hlast : s.getLast? = some st)
    (hv : (g.statement st).2 = some v) :
    (g.statements s (some rt) =
      Document.group (joinDoc
        (if rt.is_nil then s.map (fun x => (g.statement x).1)
         else (s.map (fun x => (g.statement x).1)) ++ [v]) Document.line)) ∧
    (exGen.function exFnInt).flatten = "let f () = begin let x = 1 x end" ∧
    (exGen.function exFnNil).flatten = "let gg () = begin let x = 1 end" := by
  refine ⟨?_, ?_, ?_⟩
  · rw [statements_eq, hlast]
    simp only [Option.elim, hv]
    cases hn : rt.is_nil <;> simp [hn]
  · simp only [Generator.function, exFnInt, exGen, exStmtLet]
    rw [statements_eq]
    simp [Generator.statement, Generator.get_assignment_info, Generator.pattern,
      Generator.expression, Generator.fun_args, Generator.map_publicity,
      Document.flatten, joinDoc, docList, FsType.is_nil, Document.surround]
  · simp only [Generator.function, exFnNil, exGen, exStmtLet]
    rw [statements_eq]
    simp [Generator.statement, Generator.get_assignment_info, Generator.pattern,
      Generator.expression, Generator.fun_args, Generator.map_publicity,
      Document.flatten, joinDoc, docList, FsType.is_nil, Document.surround]

/-- C3 witness: the concrete body `let x = 1` under return types Int and
Nil. -/
theorem claim_C3_witness :
    exGen.statements [exStmtLet] (some (.named "gleam" "Int" [])) =
      Document.group (joinDoc
        ([exStmtLet].map (fun x => (exGen.statement x).1) ++ [Document.text "x"])
        Document.line) ∧
    exGen.statements [exStmtLet] (some (.named "gleam" "Nil" [])) =
      Document.group (joinDoc
        ([exStmtLet].map (fun x => (exGen.statement x).1)) Document.line) := by
  constructor
  · have h := (claim_C3 exGen [exStmtLet] exStmtLet (Document.text "x")
      (.named "gleam" "Int" []) rfl
      (by simp [Generator.statement, Generator.get_assignment_info,
        Generator.pattern, exStmtLet])).1
    rw [h]
    simp [FsType.is_nil]
  · have h := (claim_C3 exGen [exStmtLet] exStmtLet (Document.text "x")
      (.named "gleam" "Nil" []) rfl
      (by simp [Generator.statement, Generator.get_assignment_info,
        Generator.pattern, exStmtLet])).1
    rw [h]
    simp [FsType.is_nil]

/-- C10: lowering a statement sequence with no return type appends the last
bound name unconditionally; nested blocks and anonymous functions invoke
the statement lowering with no return type, so the nil-type exemption never
applies to them. -/
theorem claim_C10 (g : Generator) (s : List TypedStatement) (st : TypedStatement)
    (v : Document)
    (hlast : s.getLast? = some st)
    (hv : (g.statement st).2 = some v) :
    (g.statements s none =
      Document.group (joinDoc ((s.map (fun x => (g.statement x).1)) ++ [v])
        Document.line)) ∧
    (∀ s' : List TypedStatement,
      g.block s' = ((((Document.text "begin").append Document.line).nest 4).append
        (((g.statements s' none).nest 4).group)).append
        (Document.line.append (Document.text "end"))) ∧
    (∀ (args : List TypedArg) (body : List TypedStatement),
      g.fun' args body = (docList [Document.text "fun", g.fun_args args,
        Document.text " -> begin ", (g.statements body none).nest 4,
        Document.break' "" " ", Document.text "end"]).group) ∧
    (exGen.block [exStmtLet]).flatten = "begin let x = 1 x end" := by
  refine ⟨?_, ?_, ?_, ?_⟩
  · rw [statements_eq, hlast]
    simp only [Option.elim, hv]
  · intro s'
    rw [Generator.block]
  · intro args body
    rw [Generator.fun']
  · simp only [Generator.block, exGen, exStmtLet]
    rw [statements_eq]
    simp [Generator.statement, Generator.get_assignment_info, Generator.pattern,
      Generator.expression, Document.flatten, joinDoc, docList, Document.surround]

/-- C10 witness: the concrete block body `let x = 1` with no return type
appends the bound name. -/
theorem claim_C10_witness :
    exGen.statements [exStmtLet] none =
      Document.group (joinDoc
        ([exStmtLet].map (fun x => (exGen.statement x).1) ++ [Document.text "x"])
        Document.line) :=
  (claim_C10 exGen [exStmtLet] exStmtLet (Document.text "x") rfl
    (by simp [Generator.statement, Generator.get_assignment_info,
      Generator.pattern, exStmtLet])).1

/-! Claims C4 and C9: guard parenthesization and the `=<` operator. -/

/-- A local-variable value constructor of type Int, for concrete examples. -/
def exVCInt : ValueConstructor := ⟨.localVariable, .named "gleam" "Int" []⟩

/-- C4: at operand positions, a guard is parenthesized exactly when it is a
binary or boolean operator; operands of a binary guard are lowered through
that operand lowering; the guard `x == (y == z)` renders as `x = (y = z)`
and `x == y` renders as `x = y` with no added parentheses. -/
theorem claim_C4 (g : Generator) :
    (∀ guard : ClauseGuard,
      g.clause_guard guard =
        if guard.isBinaryOperator then
          ((Document.text "(").append (g.bare_clause_guard guard)).append
            (Document.text ")")
        else g.bare_clause_guard guard) ∧
    (∀ l r : ClauseGuard, g.bare_clause_guard (.equals l r) =
      ((g.clause_guard l).append (Document.text " = ")).append (g.clause_guard r)) ∧
    (exGen.bare_clause_guard (.equals (.var "x")
      (.equals (.var "y") (.var "z")))).flatten = "x = (y = z)" ∧
    (exGen.bare_clause_guard (.equals (.var "x") (.var "y"))).flatten = "x = y" := by
  refine ⟨?_, ?_, ?_, ?_⟩
  · intro guard
    cases guard <;> simp [Generator.clause_guard, ClauseGuard.isBinaryOperator]
  · intro l r
    rw [Generator.bare_clause_guard]
  · simp [Generator.bare_clause_guard, Generator.clause_guard, Document.flatten]
  · simp [Generator.bare_clause_guard, Generator.clause_guard, Document.flatten]

/-- C9: a less-than-or-equal comparison lowers to `=<` as a clause guard
but to `<=` as a binary-operator expression, and the two rendered forms
differ. -/
theorem claim_C9 :
    (∀ (g : Generator) (l r : ClauseGuard),
      g.bare_clause_guard (.ltEqInt l r) =
        ((g.clause_guard l).append (Document.text " =< ")).append (g.clause_guard r) ∧
      g.bare_clause_guard (.ltEqFloat l r) =
        ((g.clause_guard l).append (Document.text " =< ")).append (g.clause_guard r)) ∧
    (∀ (g : Generator) (left right : TypedExpr),
      g.binop .ltEqInt left right =
        ((((g.expression left).append (Document.text " ")).append
          (Document.text "<=")).append (Document.text " ")).append
          (g.expression right) ∧
      g.binop .ltEqFloat left right =
        ((((g.expression left).append (Document.text " ")).append
          (Document.text "<=")).append (Document.text " ")).append
          (g.expression right)) ∧
    (exGen.bare_clause_guard (.ltEqInt (.var "x") (.var "y"))).flatten = "x =< y" ∧
    (exGen.binop .ltEqInt (.var "x" exVCInt) (.var "y" exVCInt)).flatten = "x <= y" ∧
    (exGen.bare_clause_guard (.ltEqInt (.var "x") (.var "y"))).flatten ≠
      (exGen.binop .ltEqInt (.var "x" exVCInt) (.var "y" exVCInt)).flatten := by
  refine ⟨?_, ?_, ?_, ?_, ?_⟩
  · intro g l r
    constructor <;> rw [Generator.bare_clause_guard]
  · intro g left right
    constructor <;> rw [Generator.binop]
  · simp [Generator.bare_clause_guard, Generator.clause_guard, Document.flatten]
  · simp [Generator.binop, Generator.expression, Document.flatten]
  · simp [Generator.bare_clause_guard, Generator.clause_guard, Generator.binop,
      Generator.expression, Document.flatten]

/-! Claim C5: boolean/nil literal sugar. -/

/-- A value constructor for a user-defined zero-argument constructor named
`True` of unrelated type `MyBool` (not the prelude boolean). -/
def exVCUserTrue : ValueConstructor :=
  ⟨.record "True" 0 none 2, .named "mymod" "MyBool" []⟩

/-- C5 counterexample: a zero-argument constructor reference named `True`
whose value type is the user-defined `MyBool`, not the boolean type, still
lowers to the native literal `true` — the expression lowering decides by
name alone, so the claim as stated fails. -/
theorem claim_C5_counterexample :
    exGen.expression (.var "True" exVCUserTrue) = Document.text "true" ∧
    (FsType.named "mymod" "MyBool" []).is_bool = false := by
  constructor
  · simp [Generator.expression]
  · rfl

/-- C5 (amended): pattern lowering applies the native-literal sugar only
when the pattern's type is the boolean (respectively nil) type, and a
user-type constructor reusing those names stays a tagged pattern; but
expression lowering of a reference named `True`/`False`/`Nil` emits the
native literal by name alone, regardless of the value's type. -/
theorem claim_C5 (g : Generator) :
    (∀ (name pcname : String) (spread : Option SrcSpan) (ty : FsType),
      (ty.is_bool = true → name = "True" →
        g.pattern (.constructor name (.known ⟨pcname, none⟩) [] spread ty) =
          Document.text "true") ∧
      (ty.is_bool = true → name = "False" →
        g.pattern (.constructor name (.known ⟨pcname, none⟩) [] spread ty) =
          Document.text "false") ∧
      (ty.is_nil = true → ty.is_bool = false →
        g.pattern (.constructor name (.known ⟨pcname, none⟩) [] spread ty) =
          Document.text "()") ∧
      (ty.is_bool = false → ty.is_nil = false →
        g.pattern (.constructor name (.known ⟨pcname, none⟩) [] spread ty) =
          (docList [Document.text name, Document.text "()"]).surround "(" ")")) ∧
    (∀ vc : ValueConstructor,
      g.expression (.var "True" vc) = Document.text "true" ∧
      g.expression (.var "False" vc) = Document.text "false" ∧
      g.expression (.var "Nil" vc) = Document.text "()") := by
  constructor
  · intro name pcname spread ty
    refine ⟨?_, ?_, ?_, ?_⟩
    · intro hb hn
      simp [Generator.pattern, hb, hn]
    · intro hb hn
      simp [Generator.pattern, hb, hn]
    · intro hn hb
      simp [Generator.pattern, hb, hn]
    · intro hb hn
      simp [Generator.pattern, hb, hn]
  · intro vc
    refine ⟨?_, ?_, ?_⟩ <;> simp [Generator.expression]

/-- C5 witness: the prelude-bool `True` pattern lowers to `true`, the
user-type `True` pattern stays tagged, and a `Nil` reference lowers to
`()`. -/
theorem claim_C5_witness :
    exGen.pattern (.constructor "True" (.known ⟨"True", none⟩) [] none
      (.named "gleam" "Bool" [])) = Document.text "true" ∧
    exGen.pattern (.constructor "True" (.known ⟨"True", none⟩) [] none
      (.named "mymod" "MyBool" [])) =
      (docList [Document.text "True", Document.text "()"]).surround "(" ")" ∧
    exGen.expression (.var "Nil" exVCInt) = Document.text "()" :=
  ⟨((claim_C5 exGen).1 "True" "True" none (.named "gleam" "Bool" [])).1 rfl rfl,
   ((claim_C5 exGen).1 "True" "True" none (.named "mymod" "MyBool" [])).2.2.2 rfl rfl,
   ((claim_C5 exGen).2 exVCInt).2.2⟩

/-! Claim C6: unicode-escape normalization of string literals. -/

/-- The backslash run of the canonical escape-sequence shape is exactly the
leading replicate. -/
lemma takeWhile_backslash_canonical (n : Nat) (rest : List Char) (d : Char)
    (hd : (d == '\\') = false) :
    ((List.replicate n '\\' ++ d :: rest).takeWhile (· == '\\')) =
      List.replicate n '\\' := by
  induction n with
  | zero => simp [List.takeWhile_cons, hd]
  | succ k ih => simp [List.replicate_succ, List.takeWhile_cons, ih]

/-- `tryMatch` on the canonical escape-sequence shape succeeds, capturing
the backslash count and the brace content and consuming the whole
sequence. -/
lemma tryMatch_canonical (n : Nat) (content : List Char) (hn : 1 ≤ n)
    (hc : content ≠ []) (hws : ∀ ch ∈ content, nonWS ch = true) :
    tryMatch (List.replicate n '\\' ++ 'u' :: '{' :: (content ++ ['}'])) =
      some (n, content, n + 2 + content.length + 1) := by
  unfold tryMatch
  rw [takeWhile_backslash_canonical _ _ _ (by decide)]
  rw [List.length_replicate]
  have hn0 : ¬(n = 0) := by omega
  simp only [hn0, if_false]
  have hdrop : (List.replicate n '\\' ++ 'u' :: '{' :: (content ++ ['}'])).drop n =
      'u' :: '{' :: (content ++ ['}']) := by
    have := List.drop_left (List.replicate n '\\') ('u' :: '{' :: (content ++ ['}']))
    rwa [List.length_replicate] at this
  rw [hdrop]
  have hrun : (content ++ ['}']).takeWhile (fun c => nonWS c) = content ++ ['}'] := by
    refine List.takeWhile_eq_self_iff.mpr ?_
    intro x hx
    rcases List.mem_append.mp hx with h | h
    · exact hws x h
    · simp only [List.mem_singleton] at h
      subst h
      decide
  simp only [hrun]
  have hlast : lastBraceIdx (content ++ ['}']) = some content.length := by
    unfold lastBraceIdx
    rw [List.reverse_append]
    simp only [List.reverse_singleton, List.singleton_append]
    rw [List.findIdx?_cons]
    simp
  rw [hlast]
  have hp : 1 ≤ content.length := by
    cases content with
    | nil => exact absurd rfl hc
    | cons a t => simp
  simp only [hp, if_true]
  rw [List.take_left]

/-- One step of the replacement pass on a successful match. -/
lemma replaceAllAux_cons_match (fuel : Nat) (c : Char) (rest : List Char)
    (m : Nat) (content : List Char) (consumed : Nat)
    (h : tryMatch (c :: rest) = some (m, content, consumed)) :
    replaceAllAux (fuel + 1) (c :: rest) =
      List.replicate m '\\' ++
        (if m % 2 = 0 then 'u' :: '{' :: (content ++ ['}']) else 'u' :: content) ++
        replaceAllAux fuel ((c :: rest).drop consumed) := by
  simp [replaceAllAux, h]

/-- A successful match mentions an opening brace. -/
lemma tryMatch_mem_brace (xs : List Char) (m : Nat) (content : List Char)
    (consumed : Nat) (h : tryMatch xs = some (m, content, consumed)) :
    '{' ∈ xs := by
  unfold tryMatch at h
  by_cases hm : (xs.takeWhile (· == '\\')).length = 0
  · simp [hm] at h
  · simp only [hm, if_false] at h
    rcases hd : xs.drop (xs.takeWhile (· == '\\')).length with _ | ⟨a, rest⟩ <;>
      rw [hd] at h
    · simp at h
    · rcases rest with _ | ⟨b, rest2⟩
      · simp at h
      · by_cases hab : a = 'u' ∧ b = '{'
        · have : '{' ∈ xs.drop (xs.takeWhile (· == '\\')).length := by
            rw [hd, hab.2]
            simp
          exact List.drop_subset _ _ this
        · exfalso
          rcases ha : a == 'u' with _ | _ <;> rcases hb : b == '{' with _ | _ <;>
            simp_all

/-- The replacement pass leaves any text without an opening brace
unchanged — in particular text already in native escape form. -/
lemma replaceAll_no_brace (xs : List Char) (h : '{' ∉ xs) :
    replaceAll xs = xs := by
  suffices haux : ∀ (fuel : Nat) (ys : List Char), '{' ∉ ys →
      replaceAllAux fuel ys = ys by
    exact haux xs.length xs h
  intro fuel
  induction fuel with
  | zero => intro ys _; rfl
  | succ f ih =>
    intro ys hy
    cases ys with
    | nil => rfl
    | cons c rest =>
      cases htm : tryMatch (c :: rest) with
      | none =>
        have : replaceAllAux (f + 1) (c :: rest) = c :: replaceAllAux f rest := by
          simp [replaceAllAux, htm]
        rw [this, ih rest (fun hmem => hy (List.mem_cons_of_mem c hmem))]
      | some v =>
        exact absurd (tryMatch_mem_brace _ v.1 v.2.1 v.2.2 htm) hy

/-- The replacement pass on the canonical escape-sequence shape: the braces
are dropped exactly when the backslash count is odd. -/
lemma replaceAll_canonical (n : Nat) (content : List Char) (hn : 1 ≤ n)
    (hc : content ≠ []) (hws : ∀ ch ∈ content, nonWS ch = true) :
    replaceAll (List.replicate n '\\' ++ 'u' :: '{' :: (content ++ ['}'])) =
      List.replicate n '\\' ++
        (if n % 2 = 0 then 'u' :: '{' :: (content ++ ['}']) else 'u' :: content) := by
  obtain ⟨k, rfl⟩ : ∃ k, n = k + 1 := ⟨n - 1, by omega⟩
  have hxs : List.replicate (k + 1) '\\' ++ 'u' :: '{' :: (content ++ ['}']) =
      '\\' :: (List.replicate k '\\' ++ 'u' :: '{' :: (content ++ ['}'])) := by
    simp [List.replicate_succ]
  unfold replaceAll
  rw [hxs, List.length_cons]
  rw [replaceAllAux_cons_match _ _ _ _ _ _
    (by rw [← hxs]; exact tryMatch_canonical (k + 1) content hn hc hws)]
  have hdrop : ('\\' :: (List.replicate k '\\' ++ 'u' :: '{' :: (content ++ ['}']))).drop
      (k + 1 + 2 + content.length + 1) = [] := by
    refine List.drop_eq_nil_of_le ?_
    simp
    omega
  rw [hdrop]
  have hnilaux : ∀ f, replaceAllAux f ([] : List Char) = [] := by
    intro f
    cases f <;> rfl
  rw [hnilaux]
  simp

/-- C6: a string-literal escape sequence with an odd number of leading
backslashes is rewritten to native form (braces removed); an even number
leaves the text exactly as written; and text without an opening brace — in
particular text already in native form — is left unchanged. -/
theorem claim_C6 (g : Generator) (n : Nat) (content : List Char)
    (hc : content ≠ []) (hws : ∀ ch ∈ content, nonWS ch = true) :
    (n % 2 = 1 →
      g.string_inner
          (String.mk (List.replicate n '\\' ++ 'u' :: '{' :: (content ++ ['}']))) =
        Document.text (String.mk (List.replicate n '\\' ++ 'u' :: content))) ∧
    (n % 2 = 0 → 1 ≤ n →
      g.string_inner
          (String.mk (List.replicate n '\\' ++ 'u' :: '{' :: (content ++ ['}']))) =
        Document.text
          (String.mk (List.replicate n '\\' ++ 'u' :: '{' :: (content ++ ['}'])))) ∧
    (∀ xs : List Char, '{' ∉ xs →
      g.string_inner (String.mk xs) = Document.text (String.mk xs)) := by
  refine ⟨?_, ?_, ?_⟩
  · intro hodd
    simp only [Generator.string_inner]
    rw [replaceAll_canonical n content (by omega) hc hws]
    have hne : ¬(n % 2 = 0) := by omega
    simp [hne]
  · intro heven hn
    simp only [Generator.string_inner]
    rw [replaceAll_canonical n content hn hc hws]
    simp [heven]
  · intro xs hx
    simp only [Generator.string_inner]
    rw [replaceAll_no_brace xs hx]

/-- C6 witness: `\u{1F}` is rewritten to `\u1F`, `\\u{1F}` is left
unchanged, and already-native `\u1F` is left unchanged. -/
theorem claim_C6_witness :
    exGen.string_inner
        (String.mk (List.replicate 1 '\\' ++ 'u' :: '{' :: (['1', 'F'] ++ ['}']))) =
      Document.text (String.mk (List.replicate 1 '\\' ++ 'u' :: ['1', 'F'])) ∧
    exGen.string_inner
        (String.mk (List.replicate 2 '\\' ++ 'u' :: '{' :: (['1', 'F'] ++ ['}']))) =
      Document.text
        (String.mk (List.replicate 2 '\\' ++ 'u' :: '{' :: (['1', 'F'] ++ ['}']))) ∧
    exGen.string_inner (String.mk ['\\', 'u', '1', 'F']) =
      Document.text (String.mk ['\\', 'u', '1', 'F']) :=
  ⟨(claim_C6 exGen 1 ['1', 'F'] (by decide) (by decide)).1 rfl,
   (claim_C6 exGen 2 ['1', 'F'] (by decide) (by decide)).2.1 rfl (by decide),
   (claim_C6 exGen 0 ['a'] (by decide) (by decide)).2.2 ['\\', 'u', '1', 'F'] (by decide)⟩

/-! Claim C7: prelude-write debouncing. -/

/-- Number of writes to a path recorded in a write log. -/
def countWrites (log : List (String × String)) (p : String) : Nat :=
  (log.filter (fun e => e.1 == p)).length

/-- Strings with equal data are equal. -/
lemma string_ext' (s t : String) (h : s.data = t.data) : s = t := by
  cases s
  cases t
  simp_all

/-- Left cancellation for string append. -/
lemma string_append_left_cancel (a b c : String) (h : a ++ b = a ++ c) : b = c := by
  apply string_ext'
  have hd := congrArg String.data h
  simp only [String.data_append] at hd
  exact List.append_cancel_left hd

/-- Splitting equal appends with equal-length suffixes. -/
lemma string_append_suffix_inj (a b s t : String) (hl : s.length = t.length)
    (h : a ++ s = b ++ t) : a = b ∧ s = t := by
  have hd := congrArg String.data h
  simp only [String.data_append] at hd
  obtain ⟨h1, h2⟩ := List.append_inj' hd hl
  exact ⟨string_ext' _ _ h1, string_ext' _ _ h2⟩

/-- Joining the same directory with different names gives different paths. -/
lemma pathJoin_inj_name (dir a b : String) (h : pathJoin dir a = pathJoin dir b) :
    a = b :=
  string_append_left_cancel (dir ++ "/") a b h

/-- A module source file name collides with `gleam.mjs` only for the module
named `gleam`. -/
lemma mjs_ne_gleam (n : String) (hn : n ≠ "gleam") : n ++ ".mjs" ≠ "gleam.mjs" := by
  intro h
  rw [show ("gleam.mjs" : String) = "gleam" ++ ".mjs" from rfl] at h
  exact hn (string_append_suffix_inj _ _ _ _ rfl h).1

/-- A module declaration file name collides with `gleam.d.mts` only for the
module named `gleam`. -/
lemma dmts_ne_gleam (n : String) (hn : n ≠ "gleam") :
    n ++ ".d.mts" ≠ "gleam.d.mts" := by
  intro h
  rw [show ("gleam.d.mts" : String) = "gleam" ++ ".d.mts" from rfl] at h
  exact hn (string_append_suffix_inj _ _ _ _ rfl h).1

/-- A module source file name never collides with `gleam.d.mts`. -/
lemma mjs_ne_dmts (n : String) : n ++ ".mjs" ≠ "gleam.d.mts" := by
  intro h
  rw [show ("gleam.d.mts" : String) = "gleam.d" ++ ".mts" from rfl] at h
  have := (string_append_suffix_inj n "gleam.d" ".mjs" ".mts" rfl h).2
  exact absurd this (by decide)

/-- A module declaration file name never collides with `gleam.mjs`. -/
lemma dmts_ne_mjs (n : String) : n ++ ".d.mts" ≠ "gleam.mjs" := by
  intro h
  rw [show ("gleam.mjs" : String) = "gle" ++ "am.mjs" from rfl] at h
  have := (string_append_suffix_inj n "gle" ".d.mts" "am.mjs" rfl h).2
  exact absurd this (by decide)

/-- The two prelude paths differ. -/
lemma prelude_paths_ne (dir : String) :
    pathJoin dir "gleam.mjs" ≠ pathJoin dir "gleam.d.mts" := by
  intro h
  exact absurd (pathJoin_inj_name _ _ _ h) (by decide)

/-- A write makes its own path exist. -/
lemma exists_write_self (fs : FileSystem) (p c : String) :
    (fs.write p c).exists p = true := by
  simp [FileSystem.write, FileSystem.exists]

/-- Writes never remove existing paths. -/
lemma exists_write_mono (fs : FileSystem) (p c q : String)
    (h : fs.exists q = true) : (fs.write p c).exists q = true := by
  simp only [FileSystem.write, FileSystem.exists, List.any_cons] at h ⊢
  simp [h]

/-- Counting writes through one write. -/
lemma countWrites_write (fs : FileSystem) (p c q : String) :
    countWrites (fs.write p c).log q =
      countWrites fs.log q + (if p = q then 1 else 0) := by
  by_cases h : p = q <;>
    simp [FileSystem.write, countWrites, List.filter_append, h]

/-- Module-file writes preserve existence. -/
lemma writeModuleFiles_exists_mono (j : JavaScript) (jsOut tsOut : String → String)
    (w : FileSystem) (m : BuildModule) (q : String) (h : w.exists q = true) :
    (j.writeModuleFiles jsOut tsOut w m).exists q = true := by
  unfold JavaScript.writeModuleFiles JavaScript.ts_declaration JavaScript.js_module
  by_cases he : j.typescript = TypeScriptDeclarations.emit <;>
    simp only [he, if_true, if_false, reduceIte] <;>
    [exact exists_write_mono _ _ _ _ (exists_write_mono _ _ _ _ h);
     exact exists_write_mono _ _ _ _ h]

/-- Module-file writes add no writes to a path different from both of the
module's file paths. -/
lemma writeModuleFiles_count (j : JavaScript) (jsOut tsOut : String → String)
    (w : FileSystem) (m : BuildModule) (q : String)
    (hd : pathJoin j.output_directory (m.name ++ ".d.mts") ≠ q)
    (hm : pathJoin j.output_directory (m.name ++ ".mjs") ≠ q) :
    countWrites (j.writeModuleFiles jsOut tsOut w m).log q = countWrites w.log q := by
  unfold JavaScript.writeModuleFiles JavaScript.ts_declaration JavaScript.js_module
  by_cases he : j.typescript = TypeScriptDeclarations.emit <;>
    simp [he, countWrites_write, hd, hm]

/-- The module loop preserves existence. -/
lemma foldl_writeModuleFiles_exists_mono (j : JavaScript)
    (jsOut tsOut : String → String) (q : String) :
    ∀ (modules : List BuildModule) (w : FileSystem), w.exists q = true →
      (modules.foldl (j.writeModuleFiles jsOut tsOut) w).exists q = true := by
  intro modules
  induction modules with
  | nil => intro w h; exact h
  | cons m rest ih =>
    intro w h
    exact ih _ (writeModuleFiles_exists_mono j jsOut tsOut w m q h)

/-- The module loop adds no writes to a path distinct from every module's
file paths. -/
lemma foldl_writeModuleFiles_count (j : JavaScript)
    (jsOut tsOut : String → String) (q : String) :
    ∀ (modules : List BuildModule) (w : FileSystem),
      (∀ m ∈ modules, pathJoin j.output_directory (m.name ++ ".d.mts") ≠ q ∧
        pathJoin j.output_directory (m.name ++ ".mjs") ≠ q) →
      countWrites ((modules.foldl (j.writeModuleFiles jsOut tsOut) w)).log q =
        countWrites w.log q := by
  intro modules
  induction modules with
  | nil => intro w _; rfl
  | cons m rest ih =>
    intro w h
    rw [List.foldl_cons, ih _ (fun m' hm' => h m' (List.mem_cons_of_mem m hm'))]
    exact writeModuleFiles_count j jsOut tsOut w m q (h m (List.mem_cons_self m rest)).1
      (h m (List.mem_cons_self m rest)).2

/-- A conditional existence-guarded write leaves its own path, and any
already-existing path, existing. -/
lemma exists_after_cond_write (fs : FileSystem) (p c q : String)
    (h : q = p ∨ fs.exists q = true) :
    (if !(fs.exists p) then fs.write p c else fs).exists q = true := by
  split
  · cases h with
    | inl h => subst h; exact exists_write_self _ _ _
    | inr h => exact exists_write_mono _ _ _ _ h
  · rename_i hc
    cases h with
    | inl h =>
      subst h
      simpa using hc
    | inr h => exact h

/-- Existence of a path is preserved through the conditional
declaration-twin write. -/
lemma exists_preserved_ite_write (ww : FileSystem) (q p c : String) (cond : Prop)
    [Decidable cond] (h : ww.exists q = true) :
    (if cond then (if !(ww.exists p) then ww.write p c else ww) else ww).exists q
      = true := by
  split
  · split
    · exact exists_write_mono _ _ _ _ h
    · exact h
  · exact h

/-- After `write_prelude` the prelude stub exists, and so does its
declaration twin when declarations are enabled. -/
lemma write_prelude_exists (j : JavaScript) (fs : FileSystem) :
    (j.write_prelude fs).exists (pathJoin j.output_directory "gleam.mjs") = true ∧
    (j.typescript = TypeScriptDeclarations.emit →
      (j.write_prelude fs).exists (pathJoin j.output_directory "gleam.d.mts") = true) := by
  unfold JavaScript.write_prelude
  dsimp only
  constructor
  · exact exists_preserved_ite_write _ _ _ _ _
      (exists_after_cond_write _ _ _ _ (Or.inl rfl))
  · intro hemit
    rw [if_pos hemit]
    exact exists_after_cond_write _ _ _ _ (Or.inl rfl)

/-- `write_prelude` performs no write when both prelude files already
exist. -/
lemma write_prelude_skip (j : JavaScript) (fs : FileSystem)
    (h1 : fs.exists (pathJoin j.output_directory "gleam.mjs") = true)
    (h2 : j.typescript = TypeScriptDeclarations.emit →
      fs.exists (pathJoin j.output_directory "gleam.d.mts") = true) :
    j.write_prelude fs = fs := by
  by_cases he : j.typescript = TypeScriptDeclarations.emit
  · simp [JavaScript.write_prelude, he, h1, h2 he]
  · simp [JavaScript.write_prelude, he, h1]

/-- Counting writes through a conditional existence-guarded write. -/
lemma countWrites_cond_write_le (fs : FileSystem) (p c q : String) :
    countWrites (if !(fs.exists p) then fs.write p c else fs).log q ≤
      countWrites fs.log q + (if p = q then 1 else 0) := by
  split
  · exact le_of_eq (countWrites_write _ _ _ _)
  · exact Nat.le_add_right _ _

/-- `write_prelude` adds at most one write to the prelude stub path. -/
lemma write_prelude_count_pp_le (j : JavaScript) (fs : FileSystem) :
    countWrites (j.write_prelude fs).log (pathJoin j.output_directory "gleam.mjs") ≤
      countWrites fs.log (pathJoin j.output_directory "gleam.mjs") + 1 := by
  unfold JavaScript.write_prelude
  dsimp only
  split
  · refine le_trans (countWrites_cond_write_le _ _ _ _) ?_
    rw [if_neg (Ne.symm (prelude_paths_ne _)), Nat.add_zero]
    refine le_trans (countWrites_cond_write_le _ _ _ _) ?_
    rw [if_pos rfl]
  · refine le_trans (countWrites_cond_write_le _ _ _ _) ?_
    rw [if_pos rfl]

/-- `write_prelude` adds at most one write to the declaration-twin path. -/
lemma write_prelude_count_dp_le (j : JavaScript) (fs : FileSystem) :
    countWrites (j.write_prelude fs).log (pathJoin j.output_directory "gleam.d.mts") ≤
      countWrites fs.log (pathJoin j.output_directory "gleam.d.mts") + 1 := by
  unfold JavaScript.write_prelude
  dsimp only
  split
  · refine le_trans (countWrites_cond_write_le _ _ _ _) ?_
    rw [if_pos rfl]
    have h2 := countWrites_cond_write_le fs (pathJoin j.output_directory "gleam.mjs")
      ("export * from \"" ++ j.prelude_location ++ "\";\n")
      (pathJoin j.output_directory "gleam.d.mts")
    rw [if_neg (prelude_paths_ne _), Nat.add_zero] at h2
    exact Nat.add_le_add_right h2 1
  · refine le_trans (countWrites_cond_write_le _ _ _ _) ?_
    rw [if_neg (prelude_paths_ne _), Nat.add_zero]
    exact Nat.le_succ_of_le (le_refl _)

/-- C7: rendering twice against the same output location writes the
prelude stub (and, with declarations enabled, its twin) at most once: the
second render performs no prelude write because the existence check
observes the file, and a single render adds at most one write to each
prelude path. -/
theorem claim_C7 (j : JavaScript) (jsOut tsOut : String → String)
    (modules : List BuildModule) (st : FileSystem)
    (hmods : ∀ m ∈ modules, m.name ≠ "gleam") :
    countWrites (j.render jsOut tsOut (j.render jsOut tsOut st modules) modules).log
        (pathJoin j.output_directory "gleam.mjs") =
      countWrites (j.render jsOut tsOut st modules).log
        (pathJoin j.output_directory "gleam.mjs") ∧
    countWrites (j.render jsOut tsOut (j.render jsOut tsOut st modules) modules).log
        (pathJoin j.output_directory "gleam.d.mts") =
      countWrites (j.render jsOut tsOut st modules).log
        (pathJoin j.output_directory "gleam.d.mts") ∧
    countWrites (j.render jsOut tsOut st modules).log
        (pathJoin j.output_directory "gleam.mjs") ≤
      countWrites st.log (pathJoin j.output_directory "gleam.mjs") + 1 ∧
    countWrites (j.render jsOut tsOut st modules).log
        (pathJoin j.output_directory "gleam.d.mts") ≤
      countWrites st.log (pathJoin j.output_directory "gleam.d.mts") + 1 := by
  have hpaths_pp : ∀ m ∈ modules,
      pathJoin j.output_directory (m.name ++ ".d.mts") ≠
        pathJoin j.output_directory "gleam.mjs" ∧
      pathJoin j.output_directory (m.name ++ ".mjs") ≠
        pathJoin j.output_directory "gleam.mjs" := by
    intro m hm
    constructor
    · intro h
      exact dmts_ne_mjs m.name (pathJoin_inj_name _ _ _ h)
    · intro h
      exact mjs_ne_gleam m.name (hmods m hm) (pathJoin_inj_name _ _ _ h)
  have hpaths_dp : ∀ m ∈ modules,
      pathJoin j.output_directory (m.name ++ ".d.mts") ≠
        pathJoin j.output_directory "gleam.d.mts" ∧
      pathJoin j.output_directory (m.name ++ ".mjs") ≠
        pathJoin j.output_directory "gleam.d.mts" := by
    intro m hm
    constructor
    · intro h
      exact dmts_ne_gleam m.name (hmods m hm) (pathJoin_inj_name _ _ _ h)
    · intro h
      exact mjs_ne_dmts m.name (pathJoin_inj_name _ _ _ h)
  have hskip : j.render jsOut tsOut (j.render jsOut tsOut st modules) modules =
      modules.foldl (j.writeModuleFiles jsOut tsOut) (j.render jsOut tsOut st modules) := by
    unfold JavaScript.render
    refine write_prelude_skip _ _ ?_ ?_
    · exact foldl_writeModuleFiles_exists_mono j jsOut tsOut _ modules _
        (write_prelude_exists j _).1
    · intro hemit
      exact foldl_writeModuleFiles_exists_mono j jsOut tsOut _ modules _
        ((write_prelude_exists j _).2 hemit)
  refine ⟨?_, ?_, ?_, ?_⟩
  · rw [hskip]
    exact foldl_writeModuleFiles_count j jsOut tsOut _ modules _ hpaths_pp
  · rw [hskip]
    exact foldl_writeModuleFiles_count j jsOut tsOut _ modules _ hpaths_dp
  · unfold JavaScript.render
    refine le_trans (write_prelude_count_pp_le j _) ?_
    rw [foldl_writeModuleFiles_count j jsOut tsOut _ modules st hpaths_pp]
  · unfold JavaScript.render
    refine le_trans (write_prelude_count_dp_le j _) ?_
    rw [foldl_writeModuleFiles_count j jsOut tsOut _ modules st hpaths_dp]

/-- C7 witness: double render of one module with declarations enabled. -/
theorem claim_C7_witness :
    countWrites ((JavaScript.mk "out" "./prelude.mjs" .emit).render
        (fun _ => "js") (fun _ => "ts")
        ((JavaScript.mk "out" "./prelude.mjs" .emit).render
          (fun _ => "js") (fun _ => "ts") (FileSystem.mk [] []) [⟨"app"⟩])
        [⟨"app"⟩]).log (pathJoin "out" "gleam.mjs") =
      countWrites ((JavaScript.mk "out" "./prelude.mjs" .emit).render
        (fun _ => "js") (fun _ => "ts") (FileSystem.mk [] []) [⟨"app"⟩]).log
        (pathJoin "out" "gleam.mjs") :=
  (claim_C7 (JavaScript.mk "out" "./prelude.mjs" .emit) (fun _ => "js")
    (fun _ => "ts") [⟨"app"⟩] (FileSystem.mk [] [])
    (by intro m hm; simp at hm; simp [hm])).1

/-! Claim C8: deterministic manifest output. -/

/-- Sorting strings is invariant under permutation of the input. -/
lemma insertionSort_perm_eq (l l' : List String) (h : l.Perm l') :
    List.insertionSort (fun a b => a ≤ b) l =
      List.insertionSort (fun a b => a ≤ b) l' :=
  List.eq_of_perm_of_sorted
    ((List.perm_insertionSort _ l).trans (h.trans (List.perm_insertionSort _ l').symm))
    (List.sorted_insertionSort _ l) (List.sorted_insertionSort _ l')

/-- C8: the application manifest text is the same for any iteration order
of the dependency maps and any order of the module slice — both lists are
sorted before emission. -/
theorem claim_C8 (app : ErlangApp) (name version description : String)
    (erlang : ErlangConfig) (deps deps' devdeps devdeps' : List String)
    (modules modules' : List BuildModule)
    (hd : deps.Perm deps') (hdd : devdeps.Perm devdeps')
    (hm : modules.Perm modules') :
    app.render_text ⟨name, version, description, deps, devdeps, erlang⟩ modules =
      app.render_text ⟨name, version, description, deps', devdeps', erlang⟩ modules' := by
  unfold ErlangApp.render_text
  have hmods : List.insertionSort (fun a b => a ≤ b)
        (modules.map (fun m => m.name.replace "/" "@")) =
      List.insertionSort (fun a b => a ≤ b)
        (modules'.map (fun m => m.name.replace "/" "@")) :=
    insertionSort_perm_eq _ _ (hm.map _)
  have hite : (if app.config.include_dev_deps then devdeps else []).Perm
      (if app.config.include_dev_deps then devdeps' else []) := by
    split
    · exact hdd
    · exact List.Perm.refl _
  have happs : List.insertionSort (fun a b => a ≤ b)
        (((deps ++ (if app.config.include_dev_deps then devdeps else [])).map
          (fun name => ((List.lookup name app.config.package_name_overrides).getD name)))
          ++ erlang.extra_applications) =
      List.insertionSort (fun a b => a ≤ b)
        (((deps' ++ (if app.config.include_dev_deps then devdeps' else [])).map
          (fun name => ((List.lookup name app.config.package_name_overrides).getD name)))
          ++ erlang.extra_applications) :=
    insertionSort_perm_eq _ _ (List.Perm.append ((hd.append hite).map _)
      (List.Perm.refl _))
  rw [hmods, happs]

/-- C8 witness: two iteration orders of the same dependency map and module
slice produce identical manifest text. -/
theorem claim_C8_witness :
    (ErlangApp.mk "out" ⟨true, []⟩).render_text
        ⟨"pkg", "1.0.0", "d", ["b", "a"], ["d"], ⟨none, ["x"]⟩⟩ [⟨"m/one"⟩, ⟨"m/two"⟩] =
      (ErlangApp.mk "out" ⟨true, []⟩).render_text
        ⟨"pkg", "1.0.0", "d", ["a", "b"], ["d"], ⟨none, ["x"]⟩⟩ [⟨"m/two"⟩, ⟨"m/one"⟩] :=
  claim_C8 (ErlangApp.mk "out" ⟨true, []⟩) "pkg" "1.0.0" "d" ⟨none, ["x"]⟩
    ["b", "a"] ["a", "b"] ["d"] ["d"] [⟨"m/one"⟩, ⟨"m/two"⟩] [⟨"m/two"⟩, ⟨"m/one"⟩]
    (List.Perm.swap "a" "b" []) (List.Perm.refl _)
    (List.Perm.swap (BuildModule.mk "m/two") (BuildModule.mk "m/one") [])

/-! Claim C2: cross-variant accessor synthesis. -/

/-- The `(position, type, constructor)` occurrences of one label, in the
order the union lowering collects them: name-sorted constructors, argument
order within each. -/
def occurrences (t : CustomType) (label : String) :
    List (Nat × FsType × RecordConstructor) :=
  ((sortedConstructors t).map (fun c =>
    (constructorLabelOccs c).filterMap (fun kv =>
      if kv.1 = label then some kv.2 else none))).flatten

/-- The occurrence list stored under a label in the `named_fields` map. -/
def entryFor (m : List (String × List (Nat × FsType × RecordConstructor)))
    (label : String) : List (Nat × FsType × RecordConstructor) :=
  ((m.find? (fun e => e.1 == label)).map (fun e => e.2)).getD []

/-- Pushing an occurrence extends exactly its label's entry. -/
lemma entryFor_pushNamed (m : List (String × List (Nat × FsType × RecordConstructor)))
    (k : String) (v : Nat × FsType × RecordConstructor) (label : String) :
    entryFor (pushNamed m k v) label =
      if k = label then entryFor m label ++ [v] else entryFor m label := by
  induction m with
  | nil =>
    by_cases h : k = label
    · subst h
      simp [pushNamed, entryFor, List.find?]
    · have hb : (k == label) = false := beq_eq_false_iff_ne.mpr h
      simp [pushNamed, entryFor, List.find?, hb, h]
  | cons e rest ih =>
    obtain ⟨k', vs⟩ := e
    by_cases hk : k' = k
    · subst hk
      by_cases hl : k' = label
      · subst hl
        simp [pushNamed, entryFor, List.find?]
      · have hb : (k' == label) = false := beq_eq_false_iff_ne.mpr hl
        simp [pushNamed, entryFor, List.find?, hb, hl]
    · by_cases hl : k' = label
      · subst hl
        have hkl : ¬(k = k') := fun h => hk h.symm
        have hb : (k' == k') = true := beq_self_eq_true k'
        simp [pushNamed, entryFor, List.find?, hk, hkl, hb]
      · have hb : (k' == label) = false := beq_eq_false_iff_ne.mpr hl
        simp only [pushNamed, if_neg hk]
        simp only [entryFor, List.find?, hb] at ih ⊢
        exact ih

/-- Folding a pair list into the map appends each label's matching
occurrences to its entry. -/
lemma entryFor_foldl (label : String)
    (pairs : List (String × (Nat × FsType × RecordConstructor))) :
    ∀ m, entryFor (pairs.foldl (fun m kv => pushNamed m kv.1 kv.2) m) label =
      entryFor m label ++
        pairs.filterMap (fun kv => if kv.1 = label then some kv.2 else none) := by
  induction pairs with
  | nil => intro m; simp
  | cons kv rest ih =>
    intro m
    rw [List.foldl_cons, ih, entryFor_pushNamed]
    by_cases h : kv.1 = label <;> simp [h]

/-- The `named_fields` entry of a label is its occurrence list. -/
lemma entryFor_namedFields (t : CustomType) (L : String) :
    entryFor (namedFields t) L = occurrences t L := by
  unfold namedFields occurrences
  suffices haux : ∀ (cs : List RecordConstructor)
      (m : List (String × List (Nat × FsType × RecordConstructor))),
      entryFor (cs.foldl (fun m c =>
        (constructorLabelOccs c).foldl (fun m kv => pushNamed m kv.1 kv.2) m) m) L =
      entryFor m L ++ ((cs.map (fun c =>
        (constructorLabelOccs c).filterMap (fun kv =>
          if kv.1 = L then some kv.2 else none))).flatten) by
    have := haux (sortedConstructors t) []
    simpa [entryFor] using this
  intro cs
  induction cs with
  | nil => intro m; simp
  | cons c rest ih =>
    intro m
    rw [List.foldl_cons, ih, entryFor_foldl]
    simp

/-- Pushing into the map adds the key if absent and otherwise keeps the
key list unchanged. -/
lemma pushNamed_keys (m : List (String × List (Nat × FsType × RecordConstructor)))
    (k : String) (v : Nat × FsType × RecordConstructor) :
    (pushNamed m k v).map Prod.fst =
      if k ∈ m.map Prod.fst then m.map Prod.fst else m.map Prod.fst ++ [k] := by
  induction m with
  | nil => simp [pushNamed]
  | cons e rest ih =>
    obtain ⟨k', vs⟩ := e
    by_cases hk : k' = k
    · subst hk
      simp [pushNamed]
    · have hkk : ¬(k = k') := fun h => hk h.symm
      simp only [pushNamed, if_neg hk, List.map_cons, List.mem_cons]
      rw [ih]
      by_cases hmem : k ∈ rest.map Prod.fst <;> simp [hmem, hkk]

/-- Pushing preserves key distinctness. -/
lemma pushNamed_nodup (m : List (String × List (Nat × FsType × RecordConstructor)))
    (k : String) (v : Nat × FsType × RecordConstructor)
    (h : (m.map Prod.fst).Nodup) : ((pushNamed m k v).map Prod.fst).Nodup := by
  rw [pushNamed_keys]
  split
  · exact h
  · rename_i hni
    rw [List.nodup_append]
    refine ⟨h, List.nodup_singleton k, ?_⟩
    intro a ha hb
    simp only [List.mem_singleton] at hb
    subst hb
    exact hni ha

/-- Pushing preserves non-emptiness of all entries. -/
lemma pushNamed_nonempty (m : List (String × List (Nat × FsType × RecordConstructor)))
    (k : String) (v : Nat × FsType × RecordConstructor)
    (h : ∀ e ∈ m, e.2 ≠ []) : ∀ e ∈ pushNamed m k v, e.2 ≠ [] := by
  induction m with
  | nil =>
    intro e he
    simp only [pushNamed, List.mem_singleton] at he
    subst he
    simp
  | cons e0 rest ih =>
    obtain ⟨k', vs⟩ := e0
    by_cases hk : k' = k
    · subst hk
      intro e he
      simp only [pushNamed, eq_self_iff_true, if_true, ite_true, List.mem_cons] at he
      rcases he with he | he
      · subst he
        simp
      · exact h e (List.mem_cons_of_mem _ he)
    · intro e he
      simp only [pushNamed, if_neg hk, List.mem_cons] at he
      rcases he with he | he
      · subst he
        exact h _ (List.mem_cons_self _ _)
      · exact ih (fun e' he' => h e' (List.mem_cons_of_mem _ he')) e he

/-- Folding pairs into the map preserves key distinctness. -/
lemma foldl_pushNamed_nodup
    (pairs : List (String × (Nat × FsType × RecordConstructor))) :
    ∀ m, (m.map Prod.fst).Nodup →
      (((pairs.foldl (fun m kv => pushNamed m kv.1 kv.2) m)).map Prod.fst).Nodup := by
  induction pairs with
  | nil => intro m h; exact h
  | cons kv rest ih =>
    intro m h
    exact ih _ (pushNamed_nodup m kv.1 kv.2 h)

/-- Folding pairs into the map preserves non-emptiness of entries. -/
lemma foldl_pushNamed_nonempty
    (pairs : List (String × (Nat × FsType × RecordConstructor))) :
    ∀ m, (∀ e ∈ m, e.2 ≠ []) →
      ∀ e ∈ pairs.foldl (fun m kv => pushNamed m kv.1 kv.2) m, e.2 ≠ [] := by
  induction pairs with
  | nil => intro m h; exact h
  | cons kv rest ih =>
    intro m h
    exact ih _ (pushNamed_nonempty m kv.1 kv.2 h)

/-- The keys of the `named_fields` map are distinct. -/
lemma namedFields_nodup (t : CustomType) :
    ((namedFields t).map Prod.fst).Nodup := by
  unfold namedFields
  suffices haux : ∀ (cs : List RecordConstructor)
      (m : List (String × List (Nat × FsType × RecordConstructor))),
      (m.map Prod.fst).Nodup →
      ((cs.foldl (fun m c =>
        (constructorLabelOccs c).foldl (fun m kv => pushNamed m kv.1 kv.2) m) m).map
          Prod.fst).Nodup from haux _ [] (by simp)
  intro cs
  induction cs with
  | nil => intro m h; exact h
  | cons c rest ih =>
    intro m h
    exact ih _ (foldl_pushNamed_nodup _ m h)

/-- Every entry of the `named_fields` map is non-empty. -/
lemma namedFields_nonempty (t : CustomType) :
    ∀ e ∈ namedFields t, e.2 ≠ [] := by
  unfold namedFields
  suffices haux : ∀ (cs : List RecordConstructor)
      (m : List (String × List (Nat × FsType × RecordConstructor))),
      (∀ e ∈ m, e.2 ≠ []) →
      ∀ e ∈ cs.foldl (fun m c =>
        (constructorLabelOccs c).foldl (fun m kv => pushNamed m kv.1 kv.2) m) m,
        e.2 ≠ [] from haux _ [] (by simp)
  intro cs
  induction cs with
  | nil => intro m h; exact h
  | cons c rest ih =>
    intro m h
    exact ih _ (foldl_pushNamed_nonempty _ m h)

/-- With distinct keys, membership determines the entry. -/
lemma mem_entry_eq (m : List (String × List (Nat × FsType × RecordConstructor)))
    (hnodup : (m.map Prod.fst).Nodup) (L : String)
    (locs : List (Nat × FsType × RecordConstructor)) (h : (L, locs) ∈ m) :
    entryFor m L = locs := by
  induction m with
  | nil => cases h
  | cons e rest ih =>
    obtain ⟨k', vs⟩ := e
    rcases List.mem_cons.mp h with he | he
    · have h1 : L = k' := congrArg Prod.fst he
      have h2 : locs = vs := congrArg Prod.snd he
      subst h1
      subst h2
      have hbt : (L == L) = true := beq_self_eq_true L
      simp [entryFor, List.find?, hbt]
    · have hk : k' ≠ L := by
        intro hkl
        subst hkl
        have : k' ∈ rest.map Prod.fst := List.mem_map.mpr ⟨(k', locs), he, rfl⟩
        simp only [List.map_cons, List.nodup_cons] at hnodup
        exact hnodup.1 this
      have hb : (k' == L) = false := beq_eq_false_iff_ne.mpr hk
      simp only [entryFor, List.find?, hb]
      exact ih (by simpa using (List.nodup_cons.mp (by simpa using hnodup)).2) he

/-- A non-empty entry is in the map. -/
lemma entry_mem (m : List (String × List (Nat × FsType × RecordConstructor)))
    (L : String) (h : entryFor m L ≠ []) : (L, entryFor m L) ∈ m := by
  induction m with
  | nil => simp [entryFor] at h
  | cons e rest ih =>
    obtain ⟨k', vs⟩ := e
    by_cases hb : k' = L
    · subst hb
      have hbt : (k' == k') = true := beq_self_eq_true k'
      simp only [entryFor, List.find?, hbt] at h ⊢
      exact List.mem_cons_self _ _
    · have hbf : (k' == L) = false := beq_eq_false_iff_ne.mpr hb
      simp only [entryFor, List.find?, hbf] at h ⊢
      exact List.mem_cons_of_mem _ (ih h)

/-- Membership in the accessor list, characterized by the occurrence
list. -/
lemma mem_member_declarations_iff (t : CustomType) (L : String) :
    L ∈ (member_declarations t).map Prod.fst ↔
      ∃ fi ft c rest, occurrences t L = (fi, ft, c) :: rest ∧
        (occurrences t L).length = t.constructors.length ∧
        (occurrences t L).all (fun o => o.1 = fi && FsType.beq o.2.1 ft) = true := by
  unfold member_declarations
  rw [List.mem_map]
  constructor
  · rintro ⟨p, hp, hpl⟩
    rw [List.mem_filterMap] at hp
    obtain ⟨lp, hlp, hsome⟩ := hp
    have hmemNF : lp ∈ namedFields t := ((List.perm_insertionSort _ _).mem_iff).mp hlp
    obtain ⟨lbl, locs⟩ := lp
    unfold member_declaration_entry at hsome
    dsimp only at hsome
    by_cases hlen : locs.length = t.constructors.length
    · rw [if_pos hlen] at hsome
      rcases locs with _ | ⟨⟨fi, ft, c⟩, rest⟩
      · cases hsome
      · dsimp only at hsome
        by_cases hall : (((fi, ft, c) :: rest).all
            (fun o => o.1 = fi && FsType.beq o.2.1 ft)) = true
        · rw [if_pos hall] at hsome
          have hpeq : p = (lbl, memberDeclarationDoc t.name lbl ((fi, ft, c) :: rest)) :=
            ((Option.some.injEq _ _).mp hsome).symm
          have hlbl : lbl = L := by
            rw [hpeq] at hpl
            exact hpl
          subst hlbl
          have hocc : occurrences t lbl = (fi, ft, c) :: rest := by
            rw [← entryFor_namedFields]
            exact mem_entry_eq _ (namedFields_nodup t) _ _ hmemNF
          exact ⟨fi, ft, c, rest, hocc, by rw [hocc]; exact hlen, by rw [hocc]; exact hall⟩
        · rw [if_neg hall] at hsome
          cases hsome
    · rw [if_neg hlen] at hsome
      cases hsome
  · rintro ⟨fi, ft, c, rest, hocc, hlen, hall⟩
    have hne : entryFor (namedFields t) L ≠ [] := by
      rw [entryFor_namedFields, hocc]
      simp
    have hmem : (L, occurrences t L) ∈ namedFields t := by
      have := entry_mem (namedFields t) L hne
      rwa [entryFor_namedFields] at this
    refine ⟨(L, memberDeclarationDoc t.name L (occurrences t L)), ?_, rfl⟩
    rw [List.mem_filterMap]
    refine ⟨(L, occurrences t L), ((List.perm_insertionSort _ _).mem_iff).mpr hmem, ?_⟩
    unfold member_declaration_entry
    dsimp only
    rw [hocc] at hlen hall ⊢
    simp [hlen, hall]

/-- C2: for a union-shaped type, an accessor member for label `L` is
generated exactly when the collected `(position, type, constructor)`
occurrences of `L` number the type's constructor count and all agree with
the first on position and type; when the condition fails no accessor for
`L` is emitted. -/
theorem claim_C2 (g : Generator) (t : CustomType) (L : String)
    (hunion : g.is_fsharp_union_type t = true) :
    L ∈ (member_declarations t).map Prod.fst ↔
      ∃ fi ft c rest, occurrences t L = (fi, ft, c) :: rest ∧
        (occurrences t L).length = t.constructors.length ∧
        ∀ o ∈ occurrences t L, o.1 = fi ∧ FsType.beq o.2.1 ft = true := by
  rw [mem_member_declarations_iff]
  constructor
  · rintro ⟨fi, ft, c, rest, hocc, hlen, hall⟩
    refine ⟨fi, ft, c, rest, hocc, hlen, ?_⟩
    intro o ho
    have := (List.all_eq_true.mp hall) o ho
    simpa using this
  · rintro ⟨fi, ft, c, rest, hocc, hlen, hall⟩
    refine ⟨fi, ft, c, rest, hocc, hlen, ?_⟩
    rw [List.all_eq_true]
    intro o ho
    have := hall o ho
    simpa using this

/-- C2 witness: in the `Shape` example, the shared `label` field (same
position, same type in both constructors) gets an accessor; `radius` does
not. -/
theorem claim_C2_witness :
    ("label" ∈ (member_declarations exShape).map Prod.fst) ∧
    ¬("radius" ∈ (member_declarations exShape).map Prod.fst) := by
  have hcs : ("Circle" : String) ≤ "Square" := by
    rw [String.le_iff_toList_le]
    decide
  have hsorted : sortedConstructors exShape = [exCircle, exSquare] := by
    simp [sortedConstructors, exShape, List.insertionSort, List.orderedInsert,
      exCircle, exSquare, hcs]
  have hoccL : occurrences exShape "label" =
      [(1, FsType.named "gleam" "String" [], exCircle),
        (1, FsType.named "gleam" "String" [], exSquare)] := by
    unfold occurrences
    rw [hsorted]
    rfl
  constructor
  · refine (claim_C2 exGen exShape "label" (by decide)).mpr
      ⟨1, .named "gleam" "String" [], exCircle,
        [(1, .named "gleam" "String" [], exSquare)], hoccL, ?_, ?_⟩
    · rw [hoccL]
      rfl
    · intro o ho
      rw [hoccL] at ho
      simp only [List.mem_cons, List.not_mem_nil, or_false] at ho
      rcases ho with ho | ho
      · exact ho ▸ ⟨rfl, by simp [FsType.beq, FsType.beqList]⟩
      · exact ho ▸ ⟨rfl, by simp [FsType.beq, FsType.beqList]⟩
  · intro h
    obtain ⟨fi, ft, c, rest, hocc, hlen, _⟩ :=
      (claim_C2 exGen exShape "radius" (by decide)).mp h
    have hocc' : occurrences exShape "radius" =
        [(0, FsType.named "gleam" "Float" [], exCircle)] := by
      unfold occurrences
      rw [hsorted]
      rfl
    rw [hocc'] at hlen
    simp [exShape] at hlen

end GleamDotnet
